import Mathlib

/-!
Shallow embedding of the `stwo-verifier-no-std` STARK verifier (Rust) in Lean 4.

The embedding follows the Rust sources file by file:
* `src/fields/mod.rs`, `src/fields/cm31.rs`, `src/fields/qm31.rs` — the field
  tower M31 / CM31 / QM31 and `batch_inverse`;
* `src/types/point.rs` — circle points, `CirclePointIndex`;
* `src/types/poly.rs` — `Coset`, `LineDomain`, `LinePoly`;
* `src/types/fri.rs` — `Queries`, FRI degree bounds, FRI proof data;
* `src/utils.rs` — `bit_reverse_index`;
* `src/channel.rs` — the generic channel interface and the Blake2s channel
  pieces that live in this repository (`trailing_zeros`, `mix_u64` via the
  `compress` function of `src/backend.rs`);
* `src/vcs.rs` — `MerkleVerifier::verify`;
* `src/fri_utils.rs`, `src/fft_utils.rs` — decommitment-position
  reconstruction and line folding;
* `src/quotients.rs` — DEEP-ALI quotient accumulation;
* `src/backend.rs` — `FriVerifier`;
* `src/verifier.rs` — `CommitmentSchemeVerifier::verify_values`.

Machine integers are embedded as `Nat` with explicit reduction (`% 2 ^ w`)
where the Rust code wraps; `usize` is 64 bits wide.  Rust panics (asserts,
out-of-bounds indexing, `zip_eq` length mismatches) are represented by the
`panicked` outcome of `RunErr`, and fallible functions return `Except`.
Loops whose Rust form is a `while`/`loop` are translated either structurally
or with an explicit iteration budget that the source itself bounds.
-/

namespace Stwo

set_option linter.unusedTactic false
set_option linter.unreachableTactic false

/-- Rust outcome: either a returned `VerificationError` or a panic/abort. -/
inductive VerificationError where
  | InvalidStructure (msg : String)
  | MerkleProof
  | ProofOfWork
  | OodsNotMatching
  | FriQueriesNotSampled
  | FriInsufficientWitness
  | FriInvalidNumLayers
  | FriFirstLayerEvaluationsInvalid
  | FriFirstLayerCommitmentInvalid (msg : String)
  | FriInnerLayerCommitmentInvalid (layer_index : Nat) (error_msg : String)
  | FriInnerLayerEvaluationsInvalid (layer_index : Nat)
  | FriLastLayerDegreeInvalid
  | FriLastLayerEvaluationsInvalid
  | MerkleVerificationFailed (layer : Nat) (msg : String)
  deriving Repr, DecidableEq

/-- A Rust execution outcome: a returned error value, or a panic
(`assert!`, out-of-bounds indexing, `zip_eq` mismatch, ...). -/
inductive RunErr where
  | ve (e : VerificationError)
  | panicked
  deriving Repr, DecidableEq

/-! ## M31, the base field.

Modelled from the spec: the file `src/fields/m31.rs` is declared in
`src/fields/mod.rs` but absent from the sources.  Per the spec, M31 is the
integer ring mod `p = 2^31 - 1` with every element stored canonically in
`[0, p)`; `inverse` is `x^(p-2)`; `reduce` maps a `u64` into the canonical
range.  Elements are embedded as canonical `Nat` representatives. -/

def P : Nat := 2 ^ 31 - 1

abbrev M31 := Nat

def M31.add (a b : M31) : M31 := (a + b) % P

def M31.neg (a : M31) : M31 := (P - a % P) % P

def M31.sub (a b : M31) : M31 := M31.add a (M31.neg b)

def M31.mul (a b : M31) : M31 := (a * b) % P

def M31.zero : M31 := 0

def M31.one : M31 := 1

/-- Modelled from the spec: `BaseField::reduce` maps an (up to 64-bit) value
into the canonical range `[0, p)`. -/
def M31.reduce (a : Nat) : M31 := a % P

def M31.square (a : M31) : M31 := M31.mul a a

/-- Binary modular exponentiation (the `FieldExpOps::pow` loop shape), with an
explicit bit budget: `pow_fuel f b e` computes `b ^ e mod P` for `e < 2 ^ f`. -/
def M31.pow_fuel : Nat → M31 → Nat → M31
  | 0, _, _ => M31.one
  | f + 1, base, e =>
    if e = 0 then M31.one
    else
      let rest := M31.pow_fuel f (M31.square base) (e / 2)
      if e % 2 = 1 then M31.mul base rest else rest

/-- Modelled from the spec: M31 inverse is `x^(p-2)` (the exponent fits in 31
bits, so a 32-bit budget suffices). -/
def M31.inverse (a : M31) : M31 := M31.pow_fuel 32 a (P - 2)

/-! ## `batch_inverse` (src/fields/mod.rs lines 78-81).

The Rust function is a stub: `pub fn batch_inverse<F: FieldExpOps>(_column:
&[F]) -> Vec<F> { Vec::new() }` — it ignores its input and returns an empty
vector.  `FieldExpOps::batch_inverse` (lines 36-39) delegates to it. -/

def batch_inverse {F : Type} (_column : List F) : List F := []

/-! ## CM31 (src/fields/cm31.rs) and QM31 (src/fields/qm31.rs). -/

structure CM31 where
  re : M31
  im : M31
  deriving Repr, DecidableEq

def CM31.add (a b : CM31) : CM31 := ⟨M31.add a.re b.re, M31.add a.im b.im⟩

def CM31.neg (a : CM31) : CM31 := ⟨M31.neg a.re, M31.neg a.im⟩

def CM31.sub (a b : CM31) : CM31 := ⟨M31.sub a.re b.re, M31.sub a.im b.im⟩

/-- `(a + bi) * (c + di) = (ac - bd) + (ad + bc)i`. -/
def CM31.mul (a b : CM31) : CM31 :=
  ⟨M31.sub (M31.mul a.re b.re) (M31.mul a.im b.im),
   M31.add (M31.mul a.re b.im) (M31.mul a.im b.re)⟩

def CM31.zero : CM31 := ⟨M31.zero, M31.zero⟩

def CM31.one : CM31 := ⟨M31.one, M31.zero⟩

def CM31.ofM31 (a : M31) : CM31 := ⟨a, M31.zero⟩

def CM31.square (a : CM31) : CM31 := CM31.mul a a

/-- CM31 inverse: `1 / (a + bi) = (a - bi) / (a^2 + b^2)`. -/
def CM31.inverse (a : CM31) : CM31 :=
  CM31.mul ⟨a.re, M31.neg a.im⟩
    (CM31.ofM31 (M31.inverse (M31.add (M31.square a.re) (M31.square a.im))))

/-- `complex_conjugate` on CM31 negates the imaginary part. -/
def CM31.complex_conjugate (a : CM31) : CM31 := ⟨a.re, M31.neg a.im⟩

structure QM31 where
  c0 : CM31
  c1 : CM31
  deriving Repr, DecidableEq

/-- `R = 2 + i`, the constant of the extension `u^2 = 2 + i`. -/
def QM31.R : CM31 := ⟨2, 1⟩

def QM31.add (a b : QM31) : QM31 := ⟨CM31.add a.c0 b.c0, CM31.add a.c1 b.c1⟩

def QM31.neg (a : QM31) : QM31 := ⟨CM31.neg a.c0, CM31.neg a.c1⟩

def QM31.sub (a b : QM31) : QM31 := ⟨CM31.sub a.c0 b.c0, CM31.sub a.c1 b.c1⟩

/-- `(a + bu) * (c + du) = (ac + R b d) + (ad + bc)u`. -/
def QM31.mul (a b : QM31) : QM31 :=
  ⟨CM31.add (CM31.mul a.c0 b.c0) (CM31.mul QM31.R (CM31.mul a.c1 b.c1)),
   CM31.add (CM31.mul a.c0 b.c1) (CM31.mul a.c1 b.c0)⟩

def QM31.zero : QM31 := ⟨CM31.zero, CM31.zero⟩

def QM31.one : QM31 := ⟨CM31.one, CM31.zero⟩

def QM31.ofM31 (a : M31) : QM31 := ⟨CM31.ofM31 a, CM31.zero⟩

def QM31.square (a : QM31) : QM31 := QM31.mul a a

/-- `QM31::mul_cm31`: componentwise multiplication by a CM31 scalar. -/
def QM31.mul_cm31 (a : QM31) (rhs : CM31) : QM31 :=
  ⟨CM31.mul a.c0 rhs, CM31.mul a.c1 rhs⟩

/-- `complex_conjugate` on QM31 (componentwise lift: negate the second CM31
coordinate). -/
def QM31.complex_conjugate (a : QM31) : QM31 := ⟨a.c0, CM31.neg a.c1⟩

/-- QM31 inverse: `(a + bu)^-1 = (a - bu) / (a^2 - (2+i) b^2)` computed as in
the source (`ib2 = i * b^2`, `denom = a^2 - (b^2 + b^2 + ib2)`). -/
def QM31.inverse (a : QM31) : QM31 :=
  let b2 := CM31.square a.c1
  let ib2 : CM31 := ⟨M31.neg b2.im, b2.re⟩
  let denom := CM31.sub (CM31.square a.c0) (CM31.add (CM31.add b2 b2) ib2)
  let denom_inverse := CM31.inverse denom
  ⟨CM31.mul a.c0 denom_inverse, CM31.mul (CM31.neg a.c1) denom_inverse⟩

/-- Binary exponentiation for QM31 (`FieldExpOps::pow` shape) with an explicit
bit budget covering the widest exponent the verifier uses (`u128`). -/
def QM31.pow_fuel : Nat → QM31 → Nat → QM31
  | 0, _, _ => QM31.one
  | f + 1, base, e =>
    if e = 0 then QM31.one
    else
      let rest := QM31.pow_fuel f (QM31.square base) (e / 2)
      if e % 2 = 1 then QM31.mul base rest else rest

def QM31.pow (base : QM31) (e : Nat) : QM31 := QM31.pow_fuel 128 base e

/-! ## Circle points (src/types/point.rs).

`CirclePoint<F>` is a pair of field coordinates.  The generic `impl<F: Field>
Add` of the source adds componentwise, and the generic `Neg` maps `(x, y)` to
`(-x, y)`; `double` squares as a complex number.  The operations are embedded
generically over a record of field operations, mirroring the Rust generics. -/

structure FieldOps (F : Type) where
  add : F → F → F
  sub : F → F → F
  mul : F → F → F
  neg : F → F
  zero : F
  one : F

def m31Ops : FieldOps M31 :=
  ⟨M31.add, M31.sub, M31.mul, M31.neg, M31.zero, M31.one⟩

def qm31Ops : FieldOps QM31 :=
  ⟨QM31.add, QM31.sub, QM31.mul, QM31.neg, QM31.zero, QM31.one⟩

structure CirclePoint (F : Type) where
  x : F
  y : F
  deriving Repr, DecidableEq

/-- `CirclePoint::zero()` returns `(1, 0)`. -/
def CirclePoint.zero {F : Type} (ops : FieldOps F) : CirclePoint F :=
  ⟨ops.one, ops.zero⟩

/-- The source `impl<F: Field> Add for CirclePoint<F>`: componentwise
addition `(x1 + x2, y1 + y2)`. -/
def CirclePoint.add {F : Type} (ops : FieldOps F) (p q : CirclePoint F) :
    CirclePoint F :=
  ⟨ops.add p.x q.x, ops.add p.y q.y⟩

/-- The source `impl<F: Field> Neg for CirclePoint<F>`: `(x, y) ↦ (-x, y)`. -/
def CirclePoint.neg {F : Type} (ops : FieldOps F) (p : CirclePoint F) :
    CirclePoint F :=
  ⟨ops.neg p.x, p.y⟩

/-- `CirclePoint::double`: `(x + iy)^2 = (x^2 - y^2) + i(2xy)`. -/
def CirclePoint.double {F : Type} (ops : FieldOps F) (p : CirclePoint F) :
    CirclePoint F :=
  let xx := ops.mul p.x p.x
  let yy := ops.mul p.y p.y
  let xy := ops.mul p.x p.y
  ⟨ops.sub xx yy, ops.add xy xy⟩

/-- The circle-group law stated by the spec ("Group law is complex
multiplication: `(x1, y1) ⊕ (x2, y2) = (x1 x2 − y1 y2, x1 y2 + x2 y1)`"),
written out for comparison with the source `Add`. -/
def CirclePoint.spec_group_law {F : Type} (ops : FieldOps F)
    (p q : CirclePoint F) : CirclePoint F :=
  ⟨ops.sub (ops.mul p.x q.x) (ops.mul p.y q.y),
   ops.add (ops.mul p.x q.y) (ops.mul q.x p.y)⟩

/-- The fixed generator `(2, 1268011823)` of the M31 circle group. -/
def M31_CIRCLE_GEN : CirclePoint M31 := ⟨2, 1268011823⟩

def M31_CIRCLE_LOG_ORDER : Nat := 31

/-! ## `CirclePointIndex` (src/types/point.rs).

A `usize` (64-bit) index treated additively mod `2 ^ 31`.  `reduce` masks
with `(1 << 31) - 1`, i.e. reduces mod `2 ^ 31`; `add`/`sub` wrap at the
64-bit machine width first, exactly as `usize::wrapping_add/sub` do. -/

def CirclePointIndex.reduce (i : Nat) : Nat := i % 2 ^ 31

def CirclePointIndex.add (a b : Nat) : Nat :=
  CirclePointIndex.reduce ((a + b) % 2 ^ 64)

def CirclePointIndex.sub (a b : Nat) : Nat :=
  CirclePointIndex.reduce ((a + 2 ^ 64 - b % 2 ^ 64) % 2 ^ 64)

def CirclePointIndex.neg (a : Nat) : Nat := CirclePointIndex.sub 0 a

/-- `mul` widens to `u128` and reduces the product mod `2 ^ 31`. -/
def CirclePointIndex.mul (a rhs : Nat) : Nat := a * rhs % 2 ^ 31

/-- `subgroup_gen` asserts `log_size <= 31` and returns `2 ^ (31 - log)`. -/
def CirclePointIndex.subgroup_gen (log_size : Nat) : Except RunErr Nat :=
  if log_size ≤ M31_CIRCLE_LOG_ORDER then
    .ok (2 ^ (M31_CIRCLE_LOG_ORDER - log_size))
  else .error .panicked

/-- `half` asserts the index is even. -/
def CirclePointIndex.half (i : Nat) : Except RunErr Nat :=
  if i % 2 = 0 then .ok (i / 2) else .error .panicked

/-- The double-and-add loop of `CirclePointIndex::to_point`, with a 64-bit
budget (the index is a `usize`, so at most 64 iterations run). -/
def to_point_loop : Nat → CirclePoint M31 → CirclePoint M31 → Nat →
    CirclePoint M31
  | 0, res, _, _ => res
  | f + 1, res, gen, n =>
    if n = 0 then res
    else
      let res := if n % 2 = 1 then CirclePoint.add m31Ops res gen else res
      to_point_loop f res (CirclePoint.add m31Ops gen gen) (n / 2)

/-- `CirclePointIndex::to_point`: double-and-add starting from the source's
`(0, 1)` accumulator, using the source's componentwise `CirclePoint` `Add`. -/
def CirclePointIndex.to_point (i : Nat) : CirclePoint M31 :=
  if i = 0 then ⟨M31.zero, M31.one⟩
  else to_point_loop 64 ⟨M31.zero, M31.one⟩ M31_CIRCLE_GEN i

/-! ## `Coset`, `LineDomain`, `LinePoly` (src/types/poly.rs). -/

structure Coset where
  initial_index : Nat
  initial : CirclePoint M31
  step_size : Nat
  step : CirclePoint M31
  log_size : Nat
  deriving Repr, DecidableEq

/-- `Coset::new` asserts `log_size <= 31`, computes the subgroup generator
step and materialises both points via `to_point`. -/
def Coset.new (initial_index : Nat) (log_size : Nat) : Except RunErr Coset :=
  if log_size ≤ M31_CIRCLE_LOG_ORDER then do
    let step_size ← CirclePointIndex.subgroup_gen log_size
    .ok ⟨initial_index, CirclePointIndex.to_point initial_index,
         step_size, CirclePointIndex.to_point step_size, log_size⟩
  else .error .panicked

/-- `Coset::half_odds(log_size)`: initial index is the subgroup generator for
size `log_size + 2`. -/
def Coset.half_odds (log_size : Nat) : Except RunErr Coset := do
  let idx ← CirclePointIndex.subgroup_gen (log_size + 2)
  Coset.new idx log_size

/-- `Coset::at(index)`: `(initial_index + step_size * index).to_point()`. -/
def Coset.at (c : Coset) (index : Nat) : CirclePoint M31 :=
  CirclePointIndex.to_point
    (CirclePointIndex.add c.initial_index
      (CirclePointIndex.mul c.step_size index))

/-- `Coset::index_at` is a placeholder in the source: it returns the initial
index regardless of the argument. -/
def Coset.index_at (c : Coset) (_domain_index : Nat) : Nat := c.initial_index

def Coset.size (c : Coset) : Nat := 2 ^ c.log_size

/-- `Coset::double` (stub in the source): asserts `log_size > 0`, keeps
`initial_index` and `step_size` unchanged, adds each point to itself with the
componentwise `Add`, and saturating-subtracts 1 from `log_size`. -/
def Coset.double (c : Coset) : Except RunErr Coset :=
  if c.log_size > 0 then
    .ok ⟨c.initial_index, CirclePoint.add m31Ops c.initial c.initial,
         c.step_size, CirclePoint.add m31Ops c.step c.step,
         c.log_size - 1⟩
  else .error .panicked

/-- `Coset::repeated_double`: fold `double` n times. -/
def Coset.repeated_double (c : Coset) : Nat → Except RunErr Coset
  | 0 => .ok c
  | n + 1 => do Coset.repeated_double (← c.double) n

structure LineDomain where
  log_size : Nat
  coset : Coset
  deriving Repr, DecidableEq

def LineDomain.new (coset : Coset) : LineDomain := ⟨coset.log_size, coset⟩

def LineDomain.at (d : LineDomain) (index : Nat) : M31 := (d.coset.at index).x

def LineDomain.double (d : LineDomain) : Except RunErr LineDomain := do
  .ok (LineDomain.new (← d.coset.double))

structure LinePoly where
  coeffs : List QM31
  deriving Repr, DecidableEq

/-- Horner evaluation, iterating the coefficients from highest degree to
lowest (the source iterates `coeffs.iter().rev()`). -/
def LinePoly.eval_at_point (p : LinePoly) (point : QM31) : QM31 :=
  if p.coeffs.isEmpty then QM31.zero
  else p.coeffs.reverse.foldl (fun ev c => QM31.add (QM31.mul ev point) c)
    QM31.zero

/-! ## `CanonicCoset` and `CircleDomain` (src/circle.rs).

In this crate `CircleDomain` carries only a `log_size`; `at` delegates to a
`Coset` placed at index 0 of that log size. -/

structure CircleDomain where
  log_size : Nat
  deriving Repr, DecidableEq

/-- `CircleDomain::new` constructs a dummy
`Coset::new(CirclePointIndex::zero(), log_size)` — whose
`assert!(log_size <= 31)` panics for larger sizes — and keeps only the
`log_size`. -/
def CircleDomain.new (log_size : Nat) : Except RunErr CircleDomain := do
  let _dummy_coset ← Coset.new 0 log_size
  .ok ⟨log_size⟩

def CircleDomain.at (d : CircleDomain) (index : Nat) :
    Except RunErr (CirclePoint M31) := do
  .ok ((← Coset.new 0 d.log_size).at index)

def CircleDomain.half_coset (d : CircleDomain) : Except RunErr Coset :=
  Coset.half_odds d.log_size

structure CanonicCoset where
  log_size : Nat
  deriving Repr, DecidableEq

/-- `CanonicCoset::circle_domain` delegates to `CircleDomain::new`, so it
inherits the `log_size <= 31` assertion of the dummy `Coset::new`. -/
def CanonicCoset.circle_domain (c : CanonicCoset) :
    Except RunErr CircleDomain :=
  CircleDomain.new c.log_size

/-! ## `Queries` (src/types/fri.rs). -/

structure Queries where
  log_domain_size : Nat
  positions : List Nat
  deriving Repr, DecidableEq

/-- Ascending sort on naturals (insertion sort).  Models `sort_unstable` /
`sorted_by_key`: on naturals the sorted result is unique, so stability and
the sorting algorithm are immaterial. -/
def insertSorted (x : Nat) : List Nat → List Nat
  | [] => [x]
  | y :: rest => if x ≤ y then x :: y :: rest else y :: insertSorted x rest

def sortNat : List Nat → List Nat
  | [] => []
  | x :: rest => insertSorted x (sortNat rest)

/-- Itertools `dedup`: collapse *consecutive* equal elements. -/
def dedupConsecutive : List Nat → List Nat
  | [] => []
  | [a] => [a]
  | a :: b :: rest =>
    if a = b then dedupConsecutive (b :: rest)
    else a :: dedupConsecutive (b :: rest)

/-- `Queries::fold(n_folds)`: asserts `n_folds <= log_domain_size`, shifts
every position right by `n_folds` bits and removes consecutive duplicates. -/
def Queries.fold (q : Queries) (n_folds : Nat) : Except RunErr Queries :=
  if n_folds ≤ q.log_domain_size then
    .ok ⟨q.log_domain_size - n_folds,
         dedupConsecutive (q.positions.map (fun p => p >>> n_folds))⟩
  else .error .panicked

def Queries.len (q : Queries) : Nat := q.positions.length

/-! ## `bit_reverse_index` (src/utils.rs).

`usize` is 64 bits wide here, so `i.reverse_bits()` reverses 64 bits and the
shift amount is `64 - log_size`.  (Every `log_size` this crate passes is at
most 31.) -/

def USIZE_BITS : Nat := 64

/-- Reverse the low `n` bits of `i` (bits of `i` above `n` are ignored). -/
def reverse_bits_fuel : Nat → Nat → Nat
  | 0, _ => 0
  | n + 1, i => i % 2 * 2 ^ n + reverse_bits_fuel n (i / 2)

/-- `usize::reverse_bits`: reverse all 64 bits. -/
def usize_reverse_bits (i : Nat) : Nat := reverse_bits_fuel 64 (i % 2 ^ 64)

/-- `bit_reverse_index(i, log_size)`: identity for `log_size = 0`, otherwise
`i.reverse_bits() >> (usize::BITS - log_size)`. -/
def bit_reverse_index (i : Nat) (log_size : Nat) : Nat :=
  if log_size = 0 then i
  else usize_reverse_bits i >>> (USIZE_BITS - log_size)

/-! ## The channel and hasher interfaces (src/channel.rs).

The verifier is generic over `MC: MerkleChannel` (a channel type plus a
Merkle hasher); the embedding is generic over a record of total channel
operations and a hash-node function, mirroring the Rust trait bounds. -/

structure ChannelOps (σ : Type) (H : Type) where
  mix_felts : σ → List QM31 → σ
  mix_u64 : σ → Nat → σ
  draw_felt : σ → QM31 × σ
  draw_random_bytes : σ → List Nat × σ
  trailing_zeros : σ → Nat
  mix_root : σ → H → σ

structure MerkleHasherOps (H : Type) where
  hash_node : Option (H × H) → List M31 → H

def SECURE_EXTENSION_DEGREE : Nat := 4

/-- `QM31::to_m31_array`: the four base-field coordinates `(a, b, c, d)`. -/
def QM31.to_m31_array (a : QM31) : List M31 :=
  [a.c0.re, a.c0.im, a.c1.re, a.c1.im]

/-! ## FRI data types (src/types/fri.rs) and proof types (src/types/). -/

structure MerkleDecommitment (H : Type) where
  hash_witness : List H
  column_witness : List M31

structure FriLayerProof (H : Type) where
  fri_witness : List QM31
  decommitment : MerkleDecommitment H
  commitment : H

structure FriProof (H : Type) where
  first_layer : FriLayerProof H
  inner_layers : List (FriLayerProof H)
  last_layer_poly : LinePoly

structure FriConfig where
  log_blowup_factor : Nat
  log_last_layer_degree_bound : Nat
  n_queries : Nat
  deriving Repr, DecidableEq

structure PcsConfig where
  pow_bits : Nat
  fri_config : FriConfig
  deriving Repr, DecidableEq

structure FriCirclePolyDegreeBound where
  log_degree_bound : Nat
  deriving Repr, DecidableEq

structure LinePolyDegreeBound where
  log_degree_bound : Nat
  deriving Repr, DecidableEq

def FOLD_STEP : Nat := 1

def CIRCLE_TO_LINE_FOLD_STEP : Nat := 1

/-- `FriCirclePolyDegreeBound::fold_to_line`: saturating subtraction of the
circle-to-line fold step. -/
def FriCirclePolyDegreeBound.fold_to_line (b : FriCirclePolyDegreeBound) :
    LinePolyDegreeBound :=
  ⟨b.log_degree_bound - CIRCLE_TO_LINE_FOLD_STEP⟩

/-- `LinePolyDegreeBound::fold`: `None` if the bound is smaller than the fold
count. -/
def LinePolyDegreeBound.fold (b : LinePolyDegreeBound) (n_folds : Nat) :
    Option LinePolyDegreeBound :=
  if b.log_degree_bound < n_folds then none
  else some ⟨b.log_degree_bound - n_folds⟩

structure SparseEvaluation where
  subset_evals : List (List QM31)
  subset_domain_initial_indexes : List Nat

structure LineEvaluation where
  domain : LineDomain
  values : List QM31

/-- `LineEvaluation::new` asserts `1 << domain.log_size == values.len()`. -/
def LineEvaluation.new (domain : LineDomain) (values : List QM31) :
    Except RunErr LineEvaluation :=
  if 2 ^ domain.log_size = values.length then .ok ⟨domain, values⟩
  else .error .panicked

structure CommitmentSchemeProof (H : Type) where
  config : PcsConfig
  commitments : List H
  sampled_values : List (List (List QM31))
  decommitments : List (MerkleDecommitment H)
  queried_values : List (List M31)
  proof_of_work : Nat
  fri_proof : FriProof H

/-! ## `ibutterfly` (src/fft_utils.rs). -/

/-- `ibutterfly(a, b, factor)`: returns the updated pair
`(a + b, (a - b) * factor)`. -/
def ibutterfly (a b factor : QM31) : QM31 × QM31 :=
  (QM31.add a b, QM31.mul (QM31.sub a b) factor)

/-! ## FRI decommitment-position reconstruction (src/fri_utils.rs). -/

/-- `SparseEvaluation::new` asserts the two lists have equal length. -/
def SparseEvaluation.new (subset_evals : List (List QM31))
    (subset_domain_initial_indexes : List Nat) :
    Except RunErr SparseEvaluation :=
  if subset_evals.length = subset_domain_initial_indexes.length then
    .ok ⟨subset_evals, subset_domain_initial_indexes⟩
  else .error .panicked

/-- The position walk of `process_subset`: for each decommitment position, a
position equal to the next pending subset query consumes the next query
evaluation (`next_if_eq`), every other position consumes the next witness
evaluation.  Returns the rebuilt subset together with the remaining query
and witness evaluations. -/
def subset_eval_loop : List Nat → List Nat → List QM31 → List QM31 →
    Except RunErr (List QM31 × List QM31 × List QM31)
  | [], _, qe, we => .ok ([], qe, we)
  | pos :: rest, sq, qe, we =>
    match sq with
    | q :: sqtail =>
      if q = pos then
        match qe with
        | [] => .error (.ve (.InvalidStructure "Missing query evaluation"))
        | e :: qetail => do
          let (es, qe2, we2) ← subset_eval_loop rest sqtail qetail we
          .ok (e :: es, qe2, we2)
      else
        match we with
        | [] => .error (.ve .FriInsufficientWitness)
        | e :: wetail => do
          let (es, qe2, we2) ← subset_eval_loop rest (q :: sqtail) qe wetail
          .ok (e :: es, qe2, we2)
    | [] =>
      match we with
      | [] => .error (.ve .FriInsufficientWitness)
      | e :: wetail => do
        let (es, qe2, we2) ← subset_eval_loop rest [] qe wetail
        .ok (e :: es, qe2, we2)

/-- `process_subset`: walk the `fold_step_size` positions starting at
`subset_start`, rebuild that subset's evaluations, and report the subset's
decommitment positions and bit-reversed initial index. -/
def process_subset (subset_start : Nat) (subset_queries : List Nat)
    (fold_step_size : Nat) (query_evals witness_evals : List QM31)
    (log_domain_size : Nat) :
    Except RunErr (List QM31 × List QM31 × List QM31 × List Nat × Nat) := do
  let positions := (List.range fold_step_size).map (fun j => subset_start + j)
  let (es, qe2, we2) ←
    subset_eval_loop positions subset_queries query_evals witness_evals
  .ok (es, qe2, we2, positions, bit_reverse_index subset_start log_domain_size)

/-- The grouping loop of `compute_decommitment_positions_and_rebuild_evals`:
queries are grouped by the subset `(q >> fold_step) << fold_step` they fall
in; each completed group is handed to `process_subset`. -/
def rebuild_groups_loop (fold_step : Nat) (log_domain_size : Nat) :
    List Nat → List Nat → Nat → List QM31 → List QM31 → List Nat →
    List (List QM31) → List Nat →
    Except RunErr
      (List Nat × List (List QM31) × List Nat × List QM31 × List QM31)
  | [], group, cur, qe, we, accP, accE, accI =>
    if group.isEmpty then .ok (accP, accE, accI, qe, we)
    else do
      let (es, qe2, we2, ps, bi) ←
        process_subset cur group (2 ^ fold_step) qe we log_domain_size
      .ok (accP ++ ps, accE ++ [es], accI ++ [bi], qe2, we2)
  | q :: rest, group, cur, qe, we, accP, accE, accI =>
    let s := (q >>> fold_step) <<< fold_step
    if group.isEmpty || s = cur then
      rebuild_groups_loop fold_step log_domain_size rest (group ++ [q]) s qe
        we accP accE accI
    else do
      let (es, qe2, we2, ps, bi) ←
        process_subset cur group (2 ^ fold_step) qe we log_domain_size
      rebuild_groups_loop fold_step log_domain_size rest [q] s qe2 we2
        (accP ++ ps) (accE ++ [es]) (accI ++ [bi])

/-- `compute_decommitment_positions_and_rebuild_evals` (src/fri_utils.rs). -/
def compute_decommitment_positions_and_rebuild_evals (queries : Queries)
    (query_evals : List QM31) (witness_evals : List QM31) (fold_step : Nat) :
    Except RunErr (List Nat × SparseEvaluation) := do
  let (accP, accE, accI, qe_rem, _we_rem) ←
    rebuild_groups_loop fold_step queries.log_domain_size queries.positions
      [] 0 query_evals witness_evals [] [] []
  if ¬ qe_rem.isEmpty ∧ ¬ queries.positions.isEmpty then
    .error (.ve (.InvalidStructure "Extra query evaluations provided"))
  else do
    let sparse ← SparseEvaluation.new accE accI
    .ok (accP, sparse)

/-! ## Line folding (src/fri_utils.rs `fold_line`,
src/types/fri.rs `SparseEvaluation::fold_line`). -/

/-- `chunks_exact(2)` as a list of pairs (the incomplete tail is dropped). -/
def chunk_pairs {α : Type} : List α → List (α × α)
  | a :: b :: rest => (a, b) :: chunk_pairs rest
  | _ => []

/-- Modelled from the spec: `BaseField::inverse` rejects zero (the spec's
`fails-with ZeroInverse` contract); otherwise it is `x^(p-2)`. -/
def M31.inverse_checked (a : M31) : Except RunErr M31 :=
  if a = 0 then .error .panicked else .ok (M31.inverse a)

/-- The pair loop of `fold_line`: for pair `i`, the domain point is
`domain.at(bit_reverse_index(i * 2, log_size))` and the folded value is
`f0 + alpha * f1` after an inverse butterfly by `x⁻¹`. -/
def fold_line_loop (domain : LineDomain) (alpha : QM31) :
    List (QM31 × QM31) → Nat → Except RunErr (List QM31)
  | [], _ => .ok []
  | (f_x, f_neg_x) :: rest, i => do
    let domain_index := bit_reverse_index (i * 2) domain.log_size
    let x := domain.at domain_index
    let x_inv ← M31.inverse_checked x
    let (f0, f1) := ibutterfly f_x f_neg_x (QM31.ofM31 x_inv)
    let folded := QM31.add f0 (QM31.mul alpha f1)
    let tail ← fold_line_loop domain alpha rest (i + 1)
    .ok (folded :: tail)

/-- `fold_line` (src/fri_utils.rs): asserts the evaluation has a power-of-two
length of at least 2, folds pairs, and re-wraps on the doubled domain. -/
def fold_line (eval : LineEvaluation) (alpha : QM31) :
    Except RunErr LineEvaluation :=
  let n := eval.values.length
  if n < 2 then .error .panicked
  else if 2 ^ Nat.log2 n ≠ n then .error .panicked
  else do
    let folded ← fold_line_loop eval.domain alpha (chunk_pairs eval.values) 0
    let d2 ← eval.domain.double
    LineEvaluation.new d2 folded

/-- `SparseEvaluation::fold_line` (src/types/fri.rs): folds each rebuilt
subset on a two-point domain derived from the source domain and keeps each
subset's first folded value. -/
def SparseEvaluation.fold_line_m (se : SparseEvaluation) (fold_alpha : QM31)
    (source_domain : LineDomain) : Except RunErr (List QM31) :=
  (se.subset_evals.zip se.subset_domain_initial_indexes).mapM
    (fun ev_idx => do
      if source_domain.log_size < FOLD_STEP then .error .panicked
      else do
        let subset_coset ← source_domain.coset.repeated_double
          (source_domain.log_size - FOLD_STEP)
        let initial_index := subset_coset.index_at ev_idx.2
        let fold_coset ← Coset.new initial_index FOLD_STEP
        let fold_domain := LineDomain.new fold_coset
        let line_eval ← LineEvaluation.new fold_domain ev_idx.1
        let folded ← fold_line line_eval fold_alpha
        .ok (folded.values.headD QM31.zero))

/-! ## DEEP-ALI quotients (src/quotients.rs). -/

structure PointSample where
  point : CirclePoint QM31
  value : QM31
  deriving Repr, DecidableEq

structure ColumnSampleBatch where
  point : CirclePoint QM31
  columns_and_values : List (Nat × QM31)
  deriving Repr, DecidableEq

structure QuotientConstants where
  line_coeffs : List (List (QM31 × QM31 × QM31))
  batch_random_coeffs : List QM31
  deriving Repr, DecidableEq

/-- Scalar multiplication of a CM31 by an M31 (the `impl Mul<M31>`). -/
def CM31.mul_m31 (a : CM31) (s : M31) : CM31 := ⟨M31.mul a.re s, M31.mul a.im s⟩

/-- Scalar multiplication of a QM31 by an M31 (the `impl Mul<M31>`). -/
def QM31.mul_m31 (a : QM31) (s : M31) : QM31 :=
  ⟨CM31.mul_m31 a.c0 s, CM31.mul_m31 a.c1 s⟩

/-- The derived lexicographic `Ord` key of a `CirclePoint<SecureField>`:
`(x, y)` with QM31 and CM31 compared field by field. -/
def CirclePoint.qm31_key (p : CirclePoint QM31) : List Nat :=
  [p.x.c0.re, p.x.c0.im, p.x.c1.re, p.x.c1.im,
   p.y.c0.re, p.y.c0.im, p.y.c1.re, p.y.c1.im]

/-- Lexicographic strict order on lists of naturals. -/
def listLt : List Nat → List Nat → Bool
  | [], [] => false
  | [], _ :: _ => true
  | _ :: _, [] => false
  | a :: as_, b :: bs => if a < b then true else if b < a then false else
      listLt as_ bs

/-- Insert a `(column index, value)` pair into the point-keyed BTreeMap used
by `ColumnSampleBatch::new_vec` (sorted association list, values appended in
insertion order). -/
def batch_map_insert :
    List (CirclePoint QM31 × List (Nat × QM31)) → CirclePoint QM31 →
    Nat × QM31 → List (CirclePoint QM31 × List (Nat × QM31))
  | [], pt, cv => [(pt, [cv])]
  | (k, vs) :: rest, pt, cv =>
    if pt = k then (k, vs ++ [cv]) :: rest
    else if listLt pt.qm31_key k.qm31_key then (pt, [cv]) :: (k, vs) :: rest
    else (k, vs) :: batch_map_insert rest pt cv

/-- `ColumnSampleBatch::new_vec`: group all `(column index, value)` samples
by their sample point, in the BTreeMap's key order. -/
def ColumnSampleBatch.new_vec (samples : List (List PointSample)) :
    List ColumnSampleBatch :=
  let grouped := samples.enum.foldl
    (fun m ics =>
      ics.2.foldl (fun m s => batch_map_insert m s.point (ics.1, s.value)) m)
    []
  grouped.map (fun kv => ⟨kv.1, kv.2⟩)

/-- `denominator_inverses` (src/quotients.rs lines 108-149): build the CM31
denominators `(Pr(x) - x) * Pi(y) - (Pr(y) - y) * Pi(x)` and delegate to
`FieldExpOps::batch_inverse`. -/
def denominator_inverses (sample_batches : List ColumnSampleBatch)
    (domain_point : CirclePoint M31) : List CM31 :=
  let denominators := sample_batches.map (fun sb =>
    let prx := sb.point.x.c0
    let pry := sb.point.y.c0
    let pix := sb.point.x.c1
    let piy := sb.point.y.c1
    CM31.sub
      (CM31.mul (CM31.sub prx (CM31.ofM31 domain_point.x)) piy)
      (CM31.mul (CM31.sub pry (CM31.ofM31 domain_point.y)) pix))
  batch_inverse denominators

/-- `izip!` over four sequences: truncates at the shortest. -/
def zip4 {α β γ δ : Type} :
    List α → List β → List γ → List δ → List (α × β × γ × δ)
  | a :: as_, b :: bs, c :: cs, d :: ds => (a, b, c, d) :: zip4 as_ bs cs ds
  | _, _, _, _ => []

/-- The inner numerator loop of `accumulate_row_quotients`: `zip_eq` over the
batch's columns and line coefficients (panics on a length mismatch), with an
explicit panic when a column index is out of bounds of the row. -/
def row_numerator_loop (queried_values_at_row : List M31)
    (domain_point_y : M31) :
    List (Nat × QM31) → List (QM31 × QM31 × QM31) → QM31 →
    Except RunErr QM31
  | [], [], acc => .ok acc
  | [], _ :: _, _ => .error .panicked
  | _ :: _, [], _ => .error .panicked
  | (column_index, _) :: cvs, (a, b, c) :: lcs, acc =>
    if h : column_index < queried_values_at_row.length then
      let value := QM31.mul_m31 c (queried_values_at_row.get ⟨column_index, h⟩)
      let linear_term := QM31.add (QM31.mul_m31 a domain_point_y) b
      row_numerator_loop queried_values_at_row domain_point_y cvs lcs
        (QM31.add acc (QM31.sub value linear_term))
    else .error .panicked

/-- The accumulation fold of `accumulate_row_quotients`:
`acc ← acc * batch_coeff + numerator * denominator_inverse`. -/
def accumulate_row_loop (queried_values_at_row : List M31)
    (domain_point_y : M31) :
    List (ColumnSampleBatch × List (QM31 × QM31 × QM31) × QM31 × CM31) →
    QM31 → Except RunErr QM31
  | [], acc => .ok acc
  | (sb, lc, batch_coeff, denominator_inverse) :: rest, acc => do
    let numerator ← row_numerator_loop queried_values_at_row domain_point_y
      sb.columns_and_values lc QM31.zero
    accumulate_row_loop queried_values_at_row domain_point_y rest
      (QM31.add (QM31.mul acc batch_coeff)
        (QM31.mul_cm31 numerator denominator_inverse))

/-- `accumulate_row_quotients` (src/quotients.rs lines 74-105). -/
def accumulate_row_quotients (sample_batches : List ColumnSampleBatch)
    (queried_values_at_row : List M31)
    (quotient_constants : QuotientConstants)
    (domain_point : CirclePoint M31) : Except RunErr QM31 :=
  let di := denominator_inverses sample_batches domain_point
  accumulate_row_loop queried_values_at_row domain_point.y
    (zip4 sample_batches quotient_constants.line_coeffs
      quotient_constants.batch_random_coeffs di)
    QM31.zero

/-- `complex_conjugate_line_coeffs` (src/quotients.rs): asserts the sample
point is not conjugate-fixed, then returns `(alpha*a, alpha*b, alpha*c)`. -/
def complex_conjugate_line_coeffs (sample : PointSample) (alpha : QM31) :
    Except RunErr (QM31 × QM31 × QM31) :=
  if sample.point.x = QM31.complex_conjugate sample.point.x then
    .error .panicked
  else
    let a := QM31.sub (QM31.complex_conjugate sample.value) sample.value
    let c := QM31.sub (QM31.complex_conjugate sample.point.y) sample.point.y
    let b := QM31.sub (QM31.mul sample.value c) (QM31.mul a sample.point.y)
    .ok (QM31.mul alpha a, QM31.mul alpha b, QM31.mul alpha c)

/-- The per-column loop of `column_line_coeffs`: advance `alpha` by the
random coefficient before each column. -/
def column_line_coeffs_loop (random_coeff : QM31) (pt : CirclePoint QM31) :
    List (Nat × QM31) → QM31 → Except RunErr (List (QM31 × QM31 × QM31))
  | [], _ => .ok []
  | (_, sampled_value) :: rest, alpha => do
    let alpha := QM31.mul alpha random_coeff
    let coeffs ← complex_conjugate_line_coeffs ⟨pt, sampled_value⟩ alpha
    let tail ← column_line_coeffs_loop random_coeff pt rest alpha
    .ok (coeffs :: tail)

/-- `column_line_coeffs` (src/quotients.rs). -/
def column_line_coeffs (sample_batches : List ColumnSampleBatch)
    (random_coeff : QM31) :
    Except RunErr (List (List (QM31 × QM31 × QM31))) :=
  sample_batches.mapM (fun sb =>
    column_line_coeffs_loop random_coeff sb.point sb.columns_and_values
      QM31.one)

/-- `batch_random_coeffs`: `random_coeff ^ (number of columns)` per batch. -/
def batch_random_coeffs (sample_batches : List ColumnSampleBatch)
    (random_coeff : QM31) : List QM31 :=
  sample_batches.map (fun sb => QM31.pow random_coeff sb.columns_and_values.length)

/-- `quotient_constants` (src/quotients.rs). -/
def quotient_constants (sample_batches : List ColumnSampleBatch)
    (random_coeff : QM31) : Except RunErr QuotientConstants := do
  let lc ← column_line_coeffs sample_batches random_coeff
  .ok ⟨lc, batch_random_coeffs sample_batches random_coeff⟩

/-! ## `BTreeMap` with natural keys, as a key-sorted association list. -/

def NatMap (α : Type) : Type := List (Nat × α)

def natMapEmpty {α : Type} : NatMap α := []

def natMapGet {α : Type} (m : NatMap α) (k : Nat) : Option α :=
  match m with
  | [] => none
  | (k0, v) :: rest => if k0 = k then some v else natMapGet rest k

/-- BTreeMap `insert`: replaces the value at an existing key, otherwise
inserts in ascending key order. -/
def natMapInsert {α : Type} (m : NatMap α) (k : Nat) (v : α) : NatMap α :=
  match m with
  | [] => [(k, v)]
  | (k0, v0) :: rest =>
    if k = k0 then (k, v) :: rest
    else if k < k0 then (k, v) :: (k0, v0) :: rest
    else (k0, v0) :: natMapInsert rest k v

/-- BTreeMap `remove`: the removed value (if present) and the map without
that key. -/
def natMapRemove {α : Type} (m : NatMap α) (k : Nat) :
    Option α × NatMap α :=
  match m with
  | [] => (none, [])
  | (k0, v0) :: rest =>
    if k0 = k then (some v0, rest)
    else
      let (r, m2) := natMapRemove rest k
      (r, (k0, v0) :: m2)

def natMapKeys {α : Type} (m : NatMap α) : List Nat := m.map (·.1)

def natMapLen {α : Type} (m : NatMap α) : Nat := m.length

/-! ## The Merkle verifier (src/vcs.rs). -/

structure MerkleVerifier (H : Type) where
  commitment : H
  column_log_sizes : List Nat
  n_columns_per_log_size : NatMap Nat

/-- `MerkleVerifier::new`: counts the columns of each log size. -/
def MerkleVerifier.new {H : Type} (commitment : H)
    (column_log_sizes : List Nat) : MerkleVerifier H :=
  let counts := column_log_sizes.foldl
    (fun m log_size =>
      natMapInsert m log_size ((natMapGet m log_size).getD 0 + 1))
    natMapEmpty
  ⟨commitment, column_log_sizes, counts⟩

/-- `next_decommitment_node`: the minimum of the peeked previous-layer query
halved and the peeked direct query of this layer.  The source never advances
the previous-layer iterator, so its peek is the head of the static key list
collected at the start of the layer. -/
def next_decommitment_node (prev_head : Option Nat)
    (layer_queries : List Nat) : Option Nat :=
  match prev_head, layer_queries.head? with
  | none, none => none
  | some q, none => some (q / 2)
  | none, some l => some l
  | some q, some l => some (min (q / 2) l)

/-- Take `n` values off a list, or report the given error when it runs
short. -/
def take_values {α : Type} (e : RunErr) :
    Nat → List α → Except RunErr (List α × List α)
  | 0, l => .ok ([], l)
  | _ + 1, [] => .error e
  | n + 1, v :: rest => do
    let (vs, l2) ← take_values e n rest
    .ok (v :: vs, l2)

/-- One Merkle layer's `while let Some(node_index) = ...` loop.  The iteration
budget covers every consuming iteration; a zero-consumption iteration loops
forever in the source (its previous-layer peek never advances), which the
model maps to the panic outcome on budget exhaustion. -/
def merkle_layer_loop {H : Type} (hasher : MerkleHasherOps H)
    (is_leaf : Bool) (n_columns_in_layer : Nat) (prev_head : Option Nat) :
    Nat → List Nat → NatMap H → NatMap H → List H → List M31 → List M31 →
    Except RunErr (NatMap H × List H × List M31 × List M31)
  | 0, _, _, _, _, _, _ => .error .panicked
  | fuel + 1, layer_queries, current_hashes, next_hashes, hash_witness,
      column_witness, queried_values =>
    match next_decommitment_node prev_head layer_queries with
    | none => .ok (next_hashes, hash_witness, column_witness, queried_values)
    | some node_index => do
      let (children_hashes, current_hashes, hash_witness) ←
        if is_leaf then
          .ok ((none : Option (H × H)), current_hashes, hash_witness)
        else do
          let (l, current_hashes) := natMapRemove current_hashes
            (node_index * 2)
          let (left_hash, hash_witness) ←
            match l, hash_witness with
            | some h, hw => .ok (h, hw)
            | none, h :: hw => .ok (h, hw)
            | none, [] => .error (.ve .FriInsufficientWitness)
          let (r, current_hashes) := natMapRemove current_hashes
            (node_index * 2 + 1)
          let (right_hash, hash_witness) ←
            match r, hash_witness with
            | some h, hw => .ok (h, hw)
            | none, h :: hw => .ok (h, hw)
            | none, [] => .error (.ve .FriInsufficientWitness)
          .ok (some (left_hash, right_hash), current_hashes, hash_witness)
      let (node_column_values, layer_queries, column_witness,
          queried_values) ←
        if layer_queries.head? = some node_index then do
          let (vs, queried_values) ← take_values
            (.ve (.InvalidStructure "Too few queried values"))
            n_columns_in_layer queried_values
          .ok (vs, layer_queries.tail, column_witness, queried_values)
        else do
          let (vs, column_witness) ← take_values
            (.ve .FriInsufficientWitness) n_columns_in_layer column_witness
          .ok (vs, layer_queries, column_witness, queried_values)
      let computed_hash := hasher.hash_node children_hashes node_column_values
      merkle_layer_loop hasher is_leaf n_columns_in_layer prev_head fuel
        layer_queries current_hashes
        (natMapInsert next_hashes node_index computed_hash) hash_witness
        column_witness queried_values

/-- The per-layer iteration of `MerkleVerifier::verify`, from `max_log_size`
down to 0. -/
def merkle_layers_loop {H : Type} (hasher : MerkleHasherOps H)
    (max_log_size : Nat) (n_columns_per_log_size : NatMap Nat)
    (queries_per_log_size : NatMap (List Nat)) :
    List Nat → NatMap H → List H → List M31 → List M31 →
    Except RunErr (NatMap H × List H × List M31 × List M31)
  | [], current_hashes, hash_witness, column_witness, queried_values =>
    .ok (current_hashes, hash_witness, column_witness, queried_values)
  | layer_log_size :: rest, current_hashes, hash_witness, column_witness,
      queried_values => do
    let n_columns_in_layer :=
      (natMapGet n_columns_per_log_size layer_log_size).getD 0
    let prev_layer_node_indices := natMapKeys current_hashes
    let layer_column_queries :=
      (natMapGet queries_per_log_size layer_log_size).getD []
    let fuel := natMapLen current_hashes + hash_witness.length +
      column_witness.length + queried_values.length +
      layer_column_queries.length + 1
    let (next_hashes, hash_witness, column_witness, queried_values) ←
      merkle_layer_loop hasher (layer_log_size = max_log_size)
        n_columns_in_layer prev_layer_node_indices.head? fuel
        layer_column_queries current_hashes natMapEmpty hash_witness
        column_witness queried_values
    merkle_layers_loop hasher max_log_size n_columns_per_log_size
      queries_per_log_size rest next_hashes hash_witness column_witness
      queried_values

/-- `MerkleVerifier::verify` (src/vcs.rs lines 31-138). -/
def MerkleVerifier.verify {H : Type} [DecidableEq H]
    (hasher : MerkleHasherOps H) (v : MerkleVerifier H)
    (queries_per_log_size : NatMap (List Nat)) (queried_values : List M31)
    (decommitment : MerkleDecommitment H) : Except RunErr Unit :=
  match v.column_log_sizes.max? with
  | none =>
    let empty_hash := hasher.hash_node none []
    if v.commitment = empty_hash ∧ queried_values.isEmpty ∧
        decommitment.hash_witness.isEmpty ∧
        decommitment.column_witness.isEmpty then
      .ok ()
    else .error (.ve (.InvalidStructure "Empty tree mismatch"))
  | some max_log_size => do
    let layers := (List.range (max_log_size + 1)).reverse
    let (current_hashes, hash_witness, column_witness, queried_rest) ←
      merkle_layers_loop hasher max_log_size v.n_columns_per_log_size
        queries_per_log_size layers natMapEmpty decommitment.hash_witness
        decommitment.column_witness queried_values
    if ¬ hash_witness.isEmpty then
      .error (.ve (.InvalidStructure "Hash witness too long"))
    else if ¬ column_witness.isEmpty then
      .error (.ve (.InvalidStructure "Column witness too long"))
    else if ¬ queried_rest.isEmpty then
      .error (.ve (.InvalidStructure "Queried values too long"))
    else if natMapLen current_hashes ≠ 1 ∨
        natMapGet current_hashes 0 ≠ some v.commitment then
      .error (.ve (.InvalidStructure
        "Root mismatch or final hash layer invalid"))
    else .ok ()

/-! ## `Queries::generate` (src/types/fri.rs lines 21-45).

A `loop` guarded by the source's own safeguard: the counter `i` increments
every pass and the source panics once `i > n_queries * 100`, so at most
`n_queries * 100 + 1` passes run; the iteration budget is set just above
that bound (its exhaustion branch is unreachable). -/

/-- Little-endian byte-list to natural (`usize::from_le_bytes` semantics,
missing high bytes are zero padding). -/
def le_bytes_to_nat : List Nat → Nat
  | [] => 0
  | b :: rest => b % 256 + 256 * le_bytes_to_nat rest

def generate_loop {σ H : Type} (ops : ChannelOps σ H) (domain_size : Nat)
    (n_queries : Nat) :
    Nat → σ → List Nat → Nat → Except RunErr (List Nat × σ)
  | 0, _, _, _ => .error .panicked
  | fuel + 1, channel, positions, i =>
    if positions.length < n_queries then
      let (random_bytes, channel) := ops.draw_random_bytes channel
      let random_val := le_bytes_to_nat (random_bytes.take 8)
      let pos := random_val % domain_size
      let positions :=
        if positions.contains pos then positions else positions ++ [pos]
      let i := i + 1
      if i > n_queries * 100 then .error .panicked
      else generate_loop ops domain_size n_queries fuel channel positions i
    else .ok (positions, channel)

/-- `Queries::generate`: draw distinct positions below `2 ^ log_domain_size`
and sort them ascending.  (`1 << log_domain_size` panics on a `usize` once
the log reaches the word width.) -/
def Queries.generate {σ H : Type} (ops : ChannelOps σ H) (channel : σ)
    (log_domain_size : Nat) (n_queries : Nat) :
    Except RunErr (Queries × σ) :=
  if log_domain_size ≥ USIZE_BITS then .error .panicked
  else do
    let domain_size := 2 ^ log_domain_size
    let (positions, channel) ← generate_loop ops domain_size n_queries
      (n_queries * 100 + 2) channel [] 0
    .ok (⟨log_domain_size, sortNat positions⟩, channel)

/-- `get_query_positions_by_log_size` (src/backend.rs lines 456-468). -/
def get_query_positions_by_log_size (queries : Queries)
    (column_log_sizes : List Nat) : Except RunErr (NatMap (List Nat)) :=
  column_log_sizes.foldlM
    (fun positions log_size => do
      let n_folds := queries.log_domain_size - log_size
      let folded ← queries.fold n_folds
      .ok (natMapInsert positions log_size folded.positions))
    natMapEmpty

/-! ## `FriVerifier` (src/backend.rs lines 155-454). -/

structure FriVerifier (H : Type) where
  config : FriConfig
  layer_commitments : List H
  folding_alphas : List QM31
  first_layer_proof : Option (FriLayerProof H)
  inner_layers_proof : List (FriLayerProof H)
  last_layer_poly : Option LinePoly
  queries : Option Queries
  column_commitment_domains : List CircleDomain
  column_bounds : List FriCirclePolyDegreeBound

/-- `bounds.windows(2).any(|w| w[0] < w[1])`: some adjacent pair is strictly
ascending (the derived `PartialOrd` compares `log_degree_bound`). -/
def bounds_windows_ascending : List FriCirclePolyDegreeBound → Bool
  | a :: b :: rest =>
    (a.log_degree_bound < b.log_degree_bound) ||
      bounds_windows_ascending (b :: rest)
  | _ => false

/-- The inner-layer commitment loop of `FriVerifier::commit`: mix each
commitment into the channel and draw a folding alpha. -/
def commit_inner_layers_loop {σ H : Type} (ops : ChannelOps σ H) :
    List (FriLayerProof H) → σ → List H × List QM31 × σ
  | [], channel => ([], [], channel)
  | layer_proof :: rest, channel =>
    let channel := ops.mix_root channel layer_proof.commitment
    let (alpha, channel) := ops.draw_felt channel
    let (comms, alphas, channel) := commit_inner_layers_loop ops rest channel
    (layer_proof.commitment :: comms, alpha :: alphas, channel)

/-- `FriVerifier::commit` (src/backend.rs lines 175-235). -/
def FriVerifier.commit {σ H : Type} (ops : ChannelOps σ H) (channel : σ)
    (config : FriConfig) (proof : FriProof H)
    (bounds : List FriCirclePolyDegreeBound) :
    Except RunErr (FriVerifier H × σ) :=
  if bounds_windows_ascending bounds then
    .error (.ve (.InvalidStructure "FRI bounds must be sorted descending"))
  else if bounds.isEmpty then
    .error (.ve (.InvalidStructure "FRI bounds cannot be empty"))
  else do
    let column_commitment_domains ← bounds.mapM (fun bound =>
      let commitment_domain_log_size :=
        bound.log_degree_bound + config.log_blowup_factor
      (CanonicCoset.mk commitment_domain_log_size).circle_domain)
    let channel := ops.mix_root channel proof.first_layer.commitment
    let (alpha0, channel) := ops.draw_felt channel
    let (inner_comms, inner_alphas, channel) :=
      commit_inner_layers_loop ops proof.inner_layers channel
    let channel := ops.mix_felts channel proof.last_layer_poly.coeffs
    .ok (⟨config, proof.first_layer.commitment :: inner_comms,
          alpha0 :: inner_alphas, some proof.first_layer,
          proof.inner_layers, some proof.last_layer_poly, none,
          column_commitment_domains, bounds⟩, channel)

/-- `FriVerifier::sample_query_positions` (src/backend.rs lines 444-453). -/
def FriVerifier.sample_query_positions {σ H : Type} (ops : ChannelOps σ H)
    (fv : FriVerifier H) (channel : σ) (column_log_sizes : List Nat) :
    Except RunErr (NatMap (List Nat) × FriVerifier H × σ) := do
  let max_log_size := (column_log_sizes.max?).getD 0
  let (queries, channel) ← Queries.generate ops channel max_log_size
    fv.config.n_queries
  let positions ← get_query_positions_by_log_size queries column_log_sizes
  .ok (positions, { fv with queries := some queries }, channel)

/-- `FriVerifier::decommit_first_layer` (src/backend.rs lines 272-324). -/
def FriVerifier.decommit_first_layer {H : Type} [DecidableEq H]
    (hasher : MerkleHasherOps H) (fv : FriVerifier H) (queries : Queries)
    (fri_input_evaluations_at_queries : List QM31) :
    Except RunErr (List SparseEvaluation) := do
  let first_layer_proof ←
    match fv.first_layer_proof with
    | some p => .ok p
    | none => .error (.ve (.InvalidStructure "Missing first layer proof"))
  if fri_input_evaluations_at_queries.isEmpty then
    .error (.ve (.InvalidStructure
      "Answers cannot be empty for decommit_first_layer"))
  else do
    let (decommitment_positions, sparse_evaluation) ←
      compute_decommitment_positions_and_rebuild_evals queries
        fri_input_evaluations_at_queries first_layer_proof.fri_witness
        CIRCLE_TO_LINE_FOLD_STEP
    let layer_log_domain_size ←
      match fv.column_commitment_domains.head? with
      | some d => .ok d.log_size
      | none => .error .panicked
    let queried_values_for_merkle_verify :=
      (sparse_evaluation.subset_evals.flatten).flatMap QM31.to_m31_array
    let query_positions_for_merkle_verify :=
      natMapInsert natMapEmpty layer_log_domain_size decommitment_positions
    let merkle_verifier := MerkleVerifier.new first_layer_proof.commitment
      (List.replicate SECURE_EXTENSION_DEGREE layer_log_domain_size)
    merkle_verifier.verify hasher query_positions_for_merkle_verify
      queried_values_for_merkle_verify first_layer_proof.decommitment
    .ok [sparse_evaluation]

/-- The per-layer loop of `FriVerifier::decommit_inner_layers`
(src/backend.rs lines 354-400). -/
def inner_layers_loop {H : Type} [DecidableEq H]
    (hasher : MerkleHasherOps H) (folding_alphas : List QM31) :
    List (FriLayerProof H) → Nat → Queries → List QM31 →
    LinePolyDegreeBound → LineDomain → Except RunErr (Queries × List QM31)
  | [], _, layer_queries, layer_query_evals, _, _ =>
    .ok (layer_queries, layer_query_evals)
  | layer_proof :: rest, layer_index, layer_queries, layer_query_evals,
      current_line_bound, current_layer_domain => do
    let current_folding_alpha ←
      match folding_alphas.get? (layer_index + 1) with
      | some a => .ok a
      | none => .error .panicked
    let next_layer_queries ← layer_queries.fold FOLD_STEP
    let current_line_bound ←
      match current_line_bound.fold FOLD_STEP with
      | some b => .ok b
      | none => .error (.ve (.InvalidStructure
          "Degree bound too small for folding"))
    let (decommitment_positions, sparse_evaluation_for_layer) ←
      compute_decommitment_positions_and_rebuild_evals layer_queries
        layer_query_evals layer_proof.fri_witness FOLD_STEP
    let inner_layer_log_domain_size := current_layer_domain.log_size
    let queried_values_for_merkle_verify :=
      (sparse_evaluation_for_layer.subset_evals.flatten).flatMap
        QM31.to_m31_array
    let query_positions_for_merkle_verify :=
      natMapInsert natMapEmpty inner_layer_log_domain_size
        decommitment_positions
    let merkle_verifier := MerkleVerifier.new layer_proof.commitment
      (List.replicate SECURE_EXTENSION_DEGREE inner_layer_log_domain_size)
    merkle_verifier.verify hasher query_positions_for_merkle_verify
      queried_values_for_merkle_verify layer_proof.decommitment
    let layer_query_evals ← sparse_evaluation_for_layer.fold_line_m
      current_folding_alpha current_layer_domain
    let current_layer_domain ← current_layer_domain.double
    inner_layers_loop hasher folding_alphas rest (layer_index + 1)
      next_layer_queries layer_query_evals current_line_bound
      current_layer_domain

/-- `FriVerifier::decommit_inner_layers` (src/backend.rs lines 329-403). -/
def FriVerifier.decommit_inner_layers {H : Type} [DecidableEq H]
    (hasher : MerkleHasherOps H) (fv : FriVerifier H)
    (layer_queries : Queries) (first_layer_evals : List SparseEvaluation) :
    Except RunErr (Queries × List QM31) := do
  let bound0 ←
    match fv.column_bounds.head? with
    | some b => .ok b
    | none => .error .panicked
  let current_line_bound := bound0.fold_to_line
  let half ← Coset.half_odds
    (current_line_bound.log_degree_bound + fv.config.log_blowup_factor)
  let current_layer_domain := LineDomain.new half
  let layer_query_evals ←
    match first_layer_evals.head? with
    | some first_eval_sparse => do
      let alpha0 ←
        match fv.folding_alphas.head? with
        | some a => .ok a
        | none => .error .panicked
      first_eval_sparse.fold_line_m alpha0 current_layer_domain
    | none => .ok []
  inner_layers_loop hasher fv.folding_alphas fv.inner_layers_proof 0
    layer_queries layer_query_evals current_line_bound current_layer_domain

/-- The final evaluation check loop of `decommit_last_layer`: `zip` of the
query positions and folded evaluations. -/
def last_layer_check_loop (last_layer_poly : LinePoly) (domain : LineDomain) :
    List (Nat × QM31) → Except RunErr Unit
  | [] => .ok ()
  | (query_index, query_eval) :: rest =>
    let point := domain.at (bit_reverse_index query_index domain.log_size)
    let expected_eval := last_layer_poly.eval_at_point (QM31.ofM31 point)
    if query_eval ≠ expected_eval then
      .error (.ve .FriLastLayerEvaluationsInvalid)
    else last_layer_check_loop last_layer_poly domain rest

/-- `FriVerifier::decommit_last_layer` (src/backend.rs lines 406-441). -/
def FriVerifier.decommit_last_layer {H : Type} (fv : FriVerifier H)
    (queries : Queries) (final_folded_evals : List QM31) :
    Except RunErr Unit := do
  let last_layer_poly ←
    match fv.last_layer_poly with
    | some p => .ok p
    | none => .error (.ve (.InvalidStructure
        "Missing last layer polynomial in proof"))
  let last_layer_log_domain_size :=
    fv.config.log_last_layer_degree_bound + fv.config.log_blowup_factor
  let coset ← Coset.new 0 last_layer_log_domain_size
  let domain := LineDomain.new coset
  if queries.log_domain_size ≠ domain.log_size then
    .error (.ve (.InvalidStructure "Query domain size mismatch for last layer"))
  else if queries.len ≠ final_folded_evals.length then
    .error (.ve (.InvalidStructure
      "Number of queries does not match number of evals for last layer"))
  else
    last_layer_check_loop last_layer_poly domain
      (queries.positions.zip final_folded_evals)

/-- `FriVerifier::decommit_on_queries` (src/backend.rs lines 251-268). -/
def FriVerifier.decommit_on_queries {H : Type} [DecidableEq H]
    (hasher : MerkleHasherOps H) (fv : FriVerifier H) (queries : Queries)
    (fri_input_evaluations : List QM31) : Except RunErr Unit := do
  let first_layer_evals_for_folding ←
    fv.decommit_first_layer hasher queries fri_input_evaluations
  let (last_layer_queries, last_layer_evals) ←
    fv.decommit_inner_layers hasher queries first_layer_evals_for_folding
  fv.decommit_last_layer last_layer_queries last_layer_evals

/-- `FriVerifier::decommit` (src/backend.rs lines 237-247). -/
def FriVerifier.decommit {H : Type} [DecidableEq H]
    (hasher : MerkleHasherOps H) (fv : FriVerifier H)
    (fri_input_evaluations : List QM31) : Except RunErr Unit := do
  let queries ←
    match fv.queries with
    | some q => .ok q
    | none => .error (.ve .FriQueriesNotSampled)
  FriVerifier.decommit_on_queries hasher { fv with queries := none } queries
    fri_input_evaluations

/-! ## `fri_answers` (src/quotients.rs lines 151-264). -/

/-- The `while tree_idx < len && original_index >= counter + cols_in_tree`
walk of `fri_answers`; `tree_idx` strictly increases, so the iteration budget
`cls.length + 1` is never exhausted. -/
def n_cols_walk_loop (cls : List (List Nat)) :
    Nat → Nat → Nat → Nat → Nat × Nat
  | 0, _, counter, tree_idx => (counter, tree_idx)
  | fuel + 1, original_index, counter, tree_idx =>
    let cols_in_tree := ((cls.get? tree_idx).map List.length).getD 0
    if tree_idx < cls.length ∧ counter + cols_in_tree ≤ original_index then
      n_cols_walk_loop cls fuel original_index (counter + cols_in_tree)
        (tree_idx + 1)
    else (counter, tree_idx)

/-- The `for original_index in indices` loop that builds
`n_columns_for_group`; the walk state persists across iterations. -/
def n_columns_for_group_loop (cls : List (List Nat))
    (n_cols_ref : List (NatMap Nat)) (log_size : Nat) :
    List Nat → Nat → Nat → Except RunErr (List Nat)
  | [], _, _ => .ok []
  | original_index :: rest, counter, tree_idx =>
    let (counter, tree_idx) :=
      n_cols_walk_loop cls (cls.length + 1) original_index counter tree_idx
    if h : tree_idx < n_cols_ref.length then do
      let n_cols :=
        (natMapGet (n_cols_ref.get ⟨tree_idx, h⟩) log_size).getD 0
      let tail ← n_columns_for_group_loop cls n_cols_ref log_size rest
        counter tree_idx
      .ok (n_cols :: tail)
    else .error (.ve (.InvalidStructure "Mismatch (tree_idx)"))

/-- The per-row value collection of `fri_answers_for_log_size`: for each
enumerated column index whose group has columns at this log size, pull one
value from that column's queried-values iterator.  (The source's error
message interpolates the log size, column and query; the embedding keeps a
fixed message per error site, which claims never inspect.) -/
def row_values_loop (n_columns_for_group : List Nat) :
    List (Nat × Nat) → List (List M31) →
    Except RunErr (List M31 × Nat × List (List M31))
  | [], iters => .ok ([], 0, iters)
  | (group_idx, original_col_idx) :: rest, iters =>
    match n_columns_for_group.get? group_idx with
    | none => .error .panicked
    | some n_cols =>
      if n_cols > 0 then
        match iters.get? original_col_idx with
        | none => .error .panicked
        | some iter =>
          match iter with
          | [] => .error (.ve (.InvalidStructure "Insufficient values"))
          | v :: vtail => do
            let iters := iters.set original_col_idx vtail
            let (vs, consumed, iters) ← row_values_loop n_columns_for_group
              rest iters
            .ok (v :: vs, consumed + 1, iters)
      else row_values_loop n_columns_for_group rest iters

/-- The `for query_position in query_positions` loop of
`fri_answers_for_log_size`. -/
def fri_answers_queries_loop (sample_batches : List ColumnSampleBatch)
    (qc : QuotientConstants) (commitment_domain : CircleDomain)
    (column_indices : List Nat) (n_columns_for_group : List Nat)
    (log_size : Nat) :
    List Nat → List (List M31) →
    Except RunErr (List QM31 × List (List M31))
  | [], iters => .ok ([], iters)
  | query_position :: rest, iters => do
    let domain_point ←
      commitment_domain.at (bit_reverse_index query_position log_size)
    let (queried_values_at_row, consumed, iters) ←
      row_values_loop n_columns_for_group column_indices.enum iters
    let expected := (n_columns_for_group.filter (fun n => n > 0)).length
    if consumed ≠ expected then
      .error (.ve (.InvalidStructure "Consumed mismatch"))
    else do
      let q ← accumulate_row_quotients sample_batches queried_values_at_row
        qc domain_point
      let (tail, iters) ← fri_answers_queries_loop sample_batches qc
        commitment_domain column_indices n_columns_for_group log_size rest
        iters
      .ok (q :: tail, iters)

/-- `fri_answers_for_log_size` (src/quotients.rs lines 226-264). -/
def fri_answers_for_log_size (log_size : Nat)
    (samples : List (List PointSample)) (column_indices : List Nat)
    (random_coeff : QM31) (query_positions : List Nat)
    (queried_values_iters : List (List M31))
    (n_columns_for_group : List Nat) :
    Except RunErr (List QM31 × List (List M31)) := do
  let sample_batches := ColumnSampleBatch.new_vec samples
  let qc ← quotient_constants sample_batches random_coeff
  let commitment_domain ← (CanonicCoset.mk log_size).circle_domain
  fri_answers_queries_loop sample_batches qc commitment_domain
    column_indices n_columns_for_group log_size query_positions
    queried_values_iters

/-- The per-log-size loop of `fri_answers`. -/
def fri_answers_main_loop (cls : List (List Nat))
    (n_cols_ref : List (NatMap Nat)) (qpls : NatMap (List Nat))
    (random_coeff : QM31) (flat_samples : List (List PointSample))
    (indices_by_log_size : NatMap (List Nat)) :
    List Nat → List (List M31) → NatMap (List QM31) →
    Except RunErr (NatMap (List QM31) × List (List M31))
  | [], iters, results => .ok (results, iters)
  | log_size :: rest, iters, results => do
    let indices ←
      match natMapGet indices_by_log_size log_size with
      | some i => .ok i
      | none => .error .panicked
    let current_samples ← indices.mapM (fun i =>
      match flat_samples.get? i with
      | some s => (.ok s : Except RunErr (List PointSample))
      | none => .error .panicked)
    let n_columns_for_group ←
      n_columns_for_group_loop cls n_cols_ref log_size indices 0 0
    match natMapGet qpls log_size with
    | some query_positions => do
      let (answers, iters) ← fri_answers_for_log_size log_size
        current_samples indices random_coeff query_positions iters
        n_columns_for_group
      fri_answers_main_loop cls n_cols_ref qpls random_coeff flat_samples
        indices_by_log_size rest iters (natMapInsert results log_size answers)
    | none =>
      fri_answers_main_loop cls n_cols_ref qpls random_coeff flat_samples
        indices_by_log_size rest iters (natMapInsert results log_size [])

/-- `fri_answers` (src/quotients.rs lines 151-224). -/
def fri_answers (column_log_sizes : List (List Nat))
    (samples : List (List (List PointSample))) (random_coeff : QM31)
    (query_positions_per_log_size : NatMap (List Nat))
    (queried_values : List (List M31))
    (n_columns_per_log_size : List (NatMap Nat)) :
    Except RunErr (List (List QM31)) := do
  let flat_log_sizes := column_log_sizes.flatten
  let flat_samples := samples.flatten
  let indices_by_log_size := flat_log_sizes.enum.foldl
    (fun m il =>
      natMapInsert m il.2 ((natMapGet m il.2).getD [] ++ [il.1]))
    natMapEmpty
  let sorted_log_sizes :=
    (sortNat (natMapKeys indices_by_log_size)).reverse
  let (results, iters) ← fri_answers_main_loop column_log_sizes
    n_columns_per_log_size query_positions_per_log_size random_coeff
    flat_samples indices_by_log_size sorted_log_sizes queried_values
    natMapEmpty
  let final_flat_result := flat_log_sizes.map
    (fun log_size => (natMapGet results log_size).getD [])
  if iters.any (fun it => ¬ it.isEmpty) then
    .error (.ve (.InvalidStructure "Not all queried values were consumed"))
  else .ok final_flat_result

/-! ## The PCS verifier (src/verifier.rs). -/

structure CommitmentSchemeVerifier (H : Type) where
  committed_trees : List (MerkleVerifier H)
  config : PcsConfig

/-- `CommitmentSchemeVerifier::commit` (src/verifier.rs lines 51-69). -/
def CommitmentSchemeVerifier.commit {σ H : Type} (ops : ChannelOps σ H)
    (scheme : CommitmentSchemeVerifier H) (commitment : H)
    (log_degree_bounds : List Nat) (channel : σ) :
    CommitmentSchemeVerifier H × σ :=
  let channel := ops.mix_root channel commitment
  let extended_log_sizes := log_degree_bounds.map
    (fun log_size => log_size + scheme.config.fri_config.log_blowup_factor)
  let verifier := MerkleVerifier.new commitment extended_log_sizes
  ({ scheme with committed_trees := scheme.committed_trees ++ [verifier] },
   channel)

/-- The FRI degree bounds `verify_values` computes from the committed trees
(src/verifier.rs lines 84-99): all column log sizes, sorted ascending then
reversed, consecutive-deduplicated, each saturating-minus the blowup
factor. -/
def verify_values_fri_bounds {H : Type}
    (committed_trees : List (MerkleVerifier H)) (log_blowup_factor : Nat) :
    List FriCirclePolyDegreeBound :=
  let fri_bounds_u32 :=
    (sortNat (committed_trees.flatMap
      (fun v => v.column_log_sizes))).reverse
  (dedupConsecutive fri_bounds_u32).map
    (fun log_size => ⟨log_size - log_blowup_factor⟩)

/-- The single effective bound (src/verifier.rs lines 101-105): the maximum
of the computed bounds, or 0 when there are none. -/
def verify_values_effective_bound {H : Type}
    (committed_trees : List (MerkleVerifier H)) (log_blowup_factor : Nat) :
    Nat :=
  (((verify_values_fri_bounds committed_trees log_blowup_factor).map
    (fun b => b.log_degree_bound)).max?).getD 0

/-- The bounds slice `verify_values` actually hands to
`FriVerifier::commit` (src/verifier.rs line 107): a one-element array
holding the effective bound. -/
def verify_values_fri_verifier_bounds {H : Type}
    (committed_trees : List (MerkleVerifier H)) (log_blowup_factor : Nat) :
    List FriCirclePolyDegreeBound :=
  [⟨verify_values_effective_bound committed_trees log_blowup_factor⟩]

/-- The nested sample reassembly of `verify_values` (src/verifier.rs lines
139-168): zip points and sampled values per tree, per column, per sample,
failing on any length mismatch. -/
def reassemble_samples (points : List (List (List (CirclePoint QM31))))
    (sampled_values : List (List (List QM31))) :
    Except RunErr (List (List (List PointSample))) :=
  (points.zip sampled_values).mapM (fun tree =>
    if tree.1.length ≠ tree.2.length then
      .error (.ve (.InvalidStructure
        "Mismatch between points and sampled_values column count in tree"))
    else
      (tree.1.zip tree.2).mapM (fun col =>
        if col.1.length ≠ col.2.length then
          .error (.ve (.InvalidStructure
            "Mismatch between points and sampled_values sample count in column"))
        else
          .ok ((col.1.zip col.2).map
            (fun pv => (⟨pv.1, pv.2⟩ : PointSample)))))

/-- `CommitmentSchemeVerifier::verify_values` (src/verifier.rs lines
71-198), generic over the channel and Merkle hasher exactly as the Rust
function is generic over `MC: MerkleChannel`.  Returns the final channel
state on success. -/
def CommitmentSchemeVerifier.verify_values {σ H : Type} [DecidableEq H]
    (ops : ChannelOps σ H) (hasher : MerkleHasherOps H)
    (scheme : CommitmentSchemeVerifier H)
    (points : List (List (List (CirclePoint QM31))))
    (proof : CommitmentSchemeProof H) (channel : σ) :
    Except RunErr σ := do
  let flattened_sampled_values := proof.sampled_values.flatten.flatten
  let channel := ops.mix_felts channel flattened_sampled_values
  let (random_coeff, channel) := ops.draw_felt channel
  let fri_verifier_bounds := verify_values_fri_verifier_bounds
    scheme.committed_trees scheme.config.fri_config.log_blowup_factor
  let (fri_verifier, channel) ← FriVerifier.commit ops channel
    scheme.config.fri_config proof.fri_proof fri_verifier_bounds
  let channel := ops.mix_u64 channel proof.proof_of_work
  if ops.trailing_zeros channel < scheme.config.pow_bits then
    .error (.ve .ProofOfWork)
  else do
    let unique_column_log_sizes := dedupConsecutive
      (sortNat (scheme.committed_trees.flatMap
        (fun v => v.column_log_sizes)))
    let (query_positions_per_log_size, fri_verifier, channel) ←
      fri_verifier.sample_query_positions ops channel unique_column_log_sizes
    if scheme.committed_trees.length ≠ proof.decommitments.length ∨
        scheme.committed_trees.length ≠ proof.queried_values.length then
      .error (.ve (.InvalidStructure "Proof structure mismatch"))
    else do
      let _ ← ((scheme.committed_trees.zip proof.decommitments).zip
        proof.queried_values).mapM (fun tdq =>
          tdq.1.1.verify hasher query_positions_per_log_size tdq.2 tdq.1.2)
      if points.length ≠ proof.sampled_values.length then
        .error (.ve (.InvalidStructure
          "Mismatch between points and sampled_values tree count"))
      else do
        let samples ← reassemble_samples points proof.sampled_values
        let n_columns_per_log_size_for_fri := scheme.committed_trees.map
          (fun tree => tree.n_columns_per_log_size)
        let column_log_sizes_for_fri := scheme.committed_trees.map
          (fun tree => tree.column_log_sizes)
        let fri_answers_result ← fri_answers column_log_sizes_for_fri
          samples random_coeff query_positions_per_log_size
          proof.queried_values n_columns_per_log_size_for_fri
        let fri_evaluations_for_decommit ← fri_answers_result.mapM
          (fun v =>
            match v with
            | [] => (.error .panicked : Except RunErr QM31)
            | x :: _ => .ok x)
        fri_verifier.decommit hasher fri_evaluations_for_decommit
        .ok channel

/-! ## `Blake2sChannel::trailing_zeros` (src/channel.rs lines 128-134).

The digest is 32 bytes; `trailing_zeros` reads its first 16 bytes as a
little-endian `u128` and counts trailing zero bits (`u128::trailing_zeros`
returns 128 on zero). -/

/-- Trailing-zero count with a bit budget: `u128::trailing_zeros`
semantics for values below `2 ^ fuel` (returns `fuel` on zero). -/
def trailing_zeros_fuel : Nat → Nat → Nat
  | 0, _ => 0
  | f + 1, x => if x % 2 = 1 then 0 else 1 + trailing_zeros_fuel f (x / 2)

def u128_trailing_zeros (x : Nat) : Nat :=
  trailing_zeros_fuel 128 (x % 2 ^ 128)

/-- `Blake2sChannel::trailing_zeros`, as a function of the digest bytes. -/
def blake2s_channel_trailing_zeros (digest : List Nat) : Nat :=
  u128_trailing_zeros (le_bytes_to_nat (digest.take 16))

/-! ## Concrete fixtures used to exercise the generic definitions. -/

/-- A trivial channel instance over the unit state (constant draws, zero
trailing-zero count). -/
def unitChannelOps : ChannelOps Unit Unit :=
  ⟨fun c _ => c, fun c _ => c, fun c => (QM31.zero, c), fun c => ([], c),
   fun _ => 0, fun c _ => c⟩

/-- A trivial Merkle hasher over the unit hash type. -/
def unitHasherOps : MerkleHasherOps Unit := ⟨fun _ _ => ()⟩

/-- A minimal FRI proof over the unit hash type. -/
def unitFriProof : FriProof Unit := ⟨⟨[], ⟨[], []⟩, ()⟩, [], ⟨[]⟩⟩

/-- A minimal commitment-scheme proof over the unit hash type. -/
def unitPcsProof : CommitmentSchemeProof Unit :=
  ⟨⟨1, ⟨1, 0, 1⟩⟩, [], [], [], [], 0, unitFriProof⟩

/-- A commitment scheme holding no committed trees, with `pow_bits = 1`. -/
def emptyScheme : CommitmentSchemeVerifier Unit := ⟨[], ⟨1, ⟨1, 0, 1⟩⟩⟩

/-- Two committed trees whose column log sizes are 4 and 3. -/
def twoTreesScheme : CommitmentSchemeVerifier Unit :=
  ⟨[MerkleVerifier.new () [4], MerkleVerifier.new () [3]], ⟨1, ⟨1, 0, 1⟩⟩⟩

/-- The FRI verifier state produced by `FriVerifier::commit` on the trivial
channel, the empty scheme and the minimal proof. -/
def c7FvWitness : FriVerifier Unit :=
  ⟨⟨1, 0, 1⟩, [()], [QM31.zero], some ⟨[], ⟨[], []⟩, ()⟩, [], some ⟨[]⟩,
   none, [⟨1⟩], [⟨0⟩]⟩

/-! # Theorems -/

/-! ## Shared helper lemmas. -/

theorem zip4_nil_fourth {α β γ δ : Type} (as_ : List α) (bs : List β)
    (cs : List γ) : zip4 as_ bs cs ([] : List δ) = [] := by
  cases as_ <;> cases bs <;> cases cs <;> rfl

/-- `accumulate_row_quotients` always returns `Ok(zero)`: the denominator
inverses come from the stubbed `batch_inverse`, so the `izip!` loop body
never runs. -/
theorem accumulate_row_quotients_eq_zero
    (sample_batches : List ColumnSampleBatch)
    (queried_values_at_row : List M31)
    (quotient_constants : QuotientConstants)
    (domain_point : CirclePoint M31) :
    accumulate_row_quotients sample_batches queried_values_at_row
      quotient_constants domain_point = .ok QM31.zero := by
  simp only [accumulate_row_quotients, denominator_inverses, batch_inverse,
    zip4_nil_fourth]
  rfl

/-- `bounds_windows_ascending` is the negation of being sorted in descending
order (adjacent pairs non-ascending). -/
theorem bounds_windows_ascending_eq_false_iff
    (bounds : List FriCirclePolyDegreeBound) :
    bounds_windows_ascending bounds = false ↔
      List.Chain' (fun a b => b.log_degree_bound ≤ a.log_degree_bound)
        bounds := by
  induction bounds with
  | nil => simp [bounds_windows_ascending]
  | cons a rest ih =>
    cases rest with
    | nil => simp [bounds_windows_ascending]
    | cons b rest2 =>
      rw [bounds_windows_ascending, List.chain'_cons, Bool.or_eq_false_iff,
        ← ih]
      simp [Nat.not_lt, and_comm]

/-- `CircleDomain::new` succeeds on sizes within the 31-bit circle order. -/
theorem circle_domain_new_ok (log_size : Nat)
    (h : log_size ≤ M31_CIRCLE_LOG_ORDER) :
    CircleDomain.new log_size = .ok ⟨log_size⟩ := by
  simp only [CircleDomain.new, Coset.new, CirclePointIndex.subgroup_gen,
    if_pos h]
  rfl

/-- `CircleDomain::new` hits `Coset::new`'s `assert!(log_size <= 31)` on
larger sizes. -/
theorem circle_domain_new_panics (log_size : Nat)
    (h : ¬ log_size ≤ M31_CIRCLE_LOG_ORDER) :
    CircleDomain.new log_size = .error .panicked := by
  simp only [CircleDomain.new, Coset.new, if_neg h]
  rfl

/-- The commitment-domain loop of `FriVerifier::commit` succeeds when every
bound plus the blowup factor stays within the circle order, producing one
domain per bound. -/
theorem commit_domains_mapM_ok (blowup : Nat) :
    ∀ bounds : List FriCirclePolyDegreeBound,
      (∀ b ∈ bounds, b.log_degree_bound + blowup ≤ M31_CIRCLE_LOG_ORDER) →
      bounds.mapM (fun bound =>
        let commitment_domain_log_size := bound.log_degree_bound + blowup
        (CanonicCoset.mk commitment_domain_log_size).circle_domain) =
      .ok (bounds.map (fun bound =>
        ⟨bound.log_degree_bound + blowup⟩)) := by
  intro bounds
  induction bounds with
  | nil => intro _; rfl
  | cons a rest ih =>
    intro h
    rw [List.mapM_cons]
    have hd : (CanonicCoset.mk (a.log_degree_bound + blowup)).circle_domain
        = .ok ⟨a.log_degree_bound + blowup⟩ := by
      unfold CanonicCoset.circle_domain
      exact circle_domain_new_ok _ (h a (List.mem_cons_self a rest))
    simp only []
    rw [hd, ih (fun b hb => h b (List.mem_cons_of_mem a hb))]
    rfl

/-- The commitment-domain loop of `FriVerifier::commit` panics when some
bound plus the blowup factor exceeds the circle order. -/
theorem commit_domains_mapM_panics (blowup : Nat) :
    ∀ bounds : List FriCirclePolyDegreeBound,
      (¬ ∀ b ∈ bounds,
        b.log_degree_bound + blowup ≤ M31_CIRCLE_LOG_ORDER) →
      bounds.mapM (fun bound =>
        let commitment_domain_log_size := bound.log_degree_bound + blowup
        (CanonicCoset.mk commitment_domain_log_size).circle_domain) =
      .error .panicked := by
  intro bounds
  induction bounds with
  | nil =>
    intro h
    exact absurd (fun b hb => absurd hb (List.not_mem_nil b)) h
  | cons a rest ih =>
    intro h
    rw [List.mapM_cons]
    by_cases ha : a.log_degree_bound + blowup ≤ M31_CIRCLE_LOG_ORDER
    · have hd : (CanonicCoset.mk
          (a.log_degree_bound + blowup)).circle_domain
          = .ok ⟨a.log_degree_bound + blowup⟩ := by
        unfold CanonicCoset.circle_domain
        exact circle_domain_new_ok _ ha
      have hrest : ¬ ∀ b ∈ rest,
          b.log_degree_bound + blowup ≤ M31_CIRCLE_LOG_ORDER := by
        intro hall
        refine h (fun b hb => ?_)
        rcases List.mem_cons.mp hb with hb | hb
        · rw [hb]; exact ha
        · exact hall b hb
      simp only []
      rw [hd, ih hrest]
      rfl
    · have hd : (CanonicCoset.mk
          (a.log_degree_bound + blowup)).circle_domain
          = .error .panicked := by
        unfold CanonicCoset.circle_domain
        exact circle_domain_new_panics _ ha
      simp only []
      rw [hd]
      rfl

/-- On a non-empty, descending, in-range bounds slice `FriVerifier::commit`
returns `Ok` and stores the bounds unchanged. -/
theorem commit_ok_of_in_range {σ H : Type} (ops : ChannelOps σ H)
    (channel : σ) (config : FriConfig) (proof : FriProof H)
    (bounds : List FriCirclePolyDegreeBound)
    (hasc : bounds_windows_ascending bounds = false)
    (hne : bounds.isEmpty = false)
    (hrange : ∀ b ∈ bounds,
      b.log_degree_bound + config.log_blowup_factor ≤
        M31_CIRCLE_LOG_ORDER) :
    ∃ fv ch, FriVerifier.commit ops channel config proof bounds =
        .ok (fv, ch) ∧ fv.column_bounds = bounds := by
  simp only [FriVerifier.commit, hasc, hne]
  rw [commit_domains_mapM_ok config.log_blowup_factor bounds hrange]
  exact ⟨_, _, rfl, rfl⟩

/-- On a non-empty descending bounds slice with some bound out of range,
`FriVerifier::commit` panics in the commitment-domain computation. -/
theorem commit_panics_of_out_of_range {σ H : Type} (ops : ChannelOps σ H)
    (channel : σ) (config : FriConfig) (proof : FriProof H)
    (bounds : List FriCirclePolyDegreeBound)
    (hasc : bounds_windows_ascending bounds = false)
    (hne : bounds.isEmpty = false)
    (hrange : ¬ ∀ b ∈ bounds,
      b.log_degree_bound + config.log_blowup_factor ≤
        M31_CIRCLE_LOG_ORDER) :
    FriVerifier.commit ops channel config proof bounds =
      .error .panicked := by
  simp only [FriVerifier.commit, hasc, hne]
  rw [commit_domains_mapM_panics config.log_blowup_factor bounds hrange]
  rfl

/-! ## C1 -/

/-- C1: the claim states that `batch_inverse` maps a non-empty list of
non-zero field elements to the equal-length list of pointwise inverses.  The
source `batch_inverse` is a stub returning an empty vector: on the failing
input `[1]` (a non-zero M31), the output is `[]`, whose length differs from
the input's. -/
theorem c1_batch_inverse_returns_empty :
    batch_inverse ([M31.one] : List M31) = [] ∧
    (batch_inverse ([M31.one] : List M31)).length ≠
      ([M31.one] : List M31).length := by
  exact ⟨rfl, by decide⟩

/-! ## C2 -/

/-- C2: for every list of sample batches, queried row values, quotient
constants and domain point, `accumulate_row_quotients` returns QM31 zero:
`denominator_inverses` delegates to the stubbed `batch_inverse`, which
produces an empty vector, so the `izip!` accumulation loop runs zero times
and the row accumulator is never updated. -/
theorem c2_accumulate_row_quotients_always_zero
    (sample_batches : List ColumnSampleBatch)
    (queried_values_at_row : List M31)
    (quotient_constants : QuotientConstants)
    (domain_point : CirclePoint M31) :
    accumulate_row_quotients sample_batches queried_values_at_row
      quotient_constants domain_point = .ok QM31.zero :=
  accumulate_row_quotients_eq_zero sample_batches queried_values_at_row
    quotient_constants domain_point

/-! ## C3 -/

/-- C3: the claim states that `CirclePoint`'s `Add` computes the
complex-multiplication group law `(x1 x2 - y1 y2, x1 y2 + x2 y1)`.  The
source `Add` adds componentwise instead: on the failing input `G + G` (G the
M31 circle generator, which lies on the circle), the code returns
`(4, 388539999)` while the group law gives `(7, 777079998)`. -/
theorem c3_circle_add_is_componentwise_not_group_law :
    CirclePoint.add m31Ops M31_CIRCLE_GEN M31_CIRCLE_GEN =
      ⟨4, 388539999⟩ ∧
    CirclePoint.spec_group_law m31Ops M31_CIRCLE_GEN M31_CIRCLE_GEN =
      ⟨7, 777079998⟩ ∧
    CirclePoint.add m31Ops M31_CIRCLE_GEN M31_CIRCLE_GEN ≠
      CirclePoint.spec_group_law m31Ops M31_CIRCLE_GEN M31_CIRCLE_GEN := by
  refine ⟨by decide, by decide, by decide⟩

/-! ## C4 -/

/-- C4: the claim states `P + (-P) = (1, 0)` for every circle point.  With
the source's componentwise `Add` and the `(x, y) ↦ (-x, y)` `Neg`, the sum
is `(0, 2y)`: on the failing input G (on the circle: `x² + y² = 1`), the
code returns `(0, 388539999)`, not the identity `(1, 0)`. -/
theorem c4_add_neg_is_not_identity :
    M31.add (M31.square M31_CIRCLE_GEN.x) (M31.square M31_CIRCLE_GEN.y) =
      M31.one ∧
    CirclePoint.add m31Ops M31_CIRCLE_GEN
      (CirclePoint.neg m31Ops M31_CIRCLE_GEN) = ⟨0, 388539999⟩ ∧
    CirclePoint.add m31Ops M31_CIRCLE_GEN
      (CirclePoint.neg m31Ops M31_CIRCLE_GEN) ≠ CirclePoint.zero m31Ops := by
  refine ⟨by decide, by decide, by decide⟩

/-! ## C5 -/

/-- C5: the claim states that `Coset::double` halves the log size (which the
code does) and doubles the points under the group law and the indices
arithmetically.  On the failing input `Coset::new(1, 1)`, the code instead
keeps `initial_index` and `step_size` unchanged and adds the points to
themselves with the componentwise stub `Add`, so every doubling clause of
the claim fails. -/
theorem c5_coset_double_is_a_stub :
    Coset.new 1 1 =
      .ok ⟨1, ⟨2, 1268011824⟩, 1073741824, ⟨1, 1707747736⟩, 1⟩ ∧
    Coset.double ⟨1, ⟨2, 1268011824⟩, 1073741824, ⟨1, 1707747736⟩, 1⟩ =
      .ok ⟨1, ⟨4, 388540001⟩, 1073741824, ⟨2, 1268011825⟩, 0⟩ ∧
    (⟨1, ⟨4, 388540001⟩, 1073741824, ⟨2, 1268011825⟩, 0⟩ : Coset).log_size =
      0 ∧
    (1 : Nat) ≠ CirclePointIndex.mul 1 2 ∧
    (1073741824 : Nat) ≠ CirclePointIndex.mul 1073741824 2 ∧
    (⟨4, 388540001⟩ : CirclePoint M31) ≠
      CirclePoint.double m31Ops ⟨2, 1268011824⟩ ∧
    (⟨2, 1268011825⟩ : CirclePoint M31) ≠
      CirclePoint.double m31Ops ⟨1, 1707747736⟩ := by
  refine ⟨rfl, rfl, rfl, by decide, by decide, by decide, by decide⟩

/-! ## C8 -/

/-- C8: `FriVerifier::commit` fails with `InvalidStructure` exactly when the
bounds slice is empty or some adjacent pair is strictly ascending, and
returns `Ok` otherwise (no other failure exists in `commit`). -/
theorem c8_fri_verifier_commit_bounds_check {σ H : Type}
    (ops : ChannelOps σ H) (channel : σ) (config : FriConfig)
    (proof : FriProof H) (bounds : List FriCirclePolyDegreeBound) :
    ((∃ msg, FriVerifier.commit ops channel config proof bounds =
        .error (.ve (.InvalidStructure msg))) ↔
      (bounds = [] ∨
        ¬ List.Chain' (fun a b => b.log_degree_bound ≤ a.log_degree_bound)
          bounds)) ∧
    (bounds ≠ [] →
      List.Chain' (fun a b => b.log_degree_bound ≤ a.log_degree_bound)
        bounds →
      (∀ b ∈ bounds,
        b.log_degree_bound + config.log_blowup_factor ≤
          M31_CIRCLE_LOG_ORDER) →
      ∃ result,
        FriVerifier.commit ops channel config proof bounds =
          .ok result) ∧
    (bounds ≠ [] →
      List.Chain' (fun a b => b.log_degree_bound ≤ a.log_degree_bound)
        bounds →
      (¬ ∀ b ∈ bounds,
        b.log_degree_bound + config.log_blowup_factor ≤
          M31_CIRCLE_LOG_ORDER) →
      FriVerifier.commit ops channel config proof bounds =
        .error .panicked) := by
  refine ⟨⟨?_, ?_⟩, ?_, ?_⟩
  · rintro ⟨msg, hmsg⟩
    by_contra hcon
    push_neg at hcon
    obtain ⟨hne, hchain⟩ := hcon
    have hasc : bounds_windows_ascending bounds = false :=
      (bounds_windows_ascending_eq_false_iff bounds).mpr hchain
    have hne2 : bounds.isEmpty = false := by
      cases bounds
      · exact absurd rfl hne
      · rfl
    by_cases hr : ∀ b ∈ bounds,
        b.log_degree_bound + config.log_blowup_factor ≤
          M31_CIRCLE_LOG_ORDER
    · obtain ⟨fv, ch, hok, _⟩ := commit_ok_of_in_range ops channel config
        proof bounds hasc hne2 hr
      rw [hok] at hmsg
      exact Except.noConfusion hmsg
    · have hpan := commit_panics_of_out_of_range ops channel config proof
        bounds hasc hne2 hr
      rw [hpan] at hmsg
      simp at hmsg
  · intro h
    rcases h with h | h
    · subst h
      exact ⟨"FRI bounds cannot be empty",
        by simp only [FriVerifier.commit]; rfl⟩
    · have hasc : bounds_windows_ascending bounds = true := by
        rcases hb : bounds_windows_ascending bounds with _ | _
        · exact absurd
            ((bounds_windows_ascending_eq_false_iff bounds).mp hb) h
        · rfl
      exact ⟨"FRI bounds must be sorted descending",
        by simp only [FriVerifier.commit, hasc]; rfl⟩
  · intro hne hchain hr
    have hasc : bounds_windows_ascending bounds = false :=
      (bounds_windows_ascending_eq_false_iff bounds).mpr hchain
    have hne2 : bounds.isEmpty = false := by
      cases bounds
      · exact absurd rfl hne
      · rfl
    obtain ⟨fv, ch, hok, _⟩ := commit_ok_of_in_range ops channel config
      proof bounds hasc hne2 hr
    exact ⟨_, hok⟩
  · intro hne hchain hr
    have hasc : bounds_windows_ascending bounds = false :=
      (bounds_windows_ascending_eq_false_iff bounds).mpr hchain
    have hne2 : bounds.isEmpty = false := by
      cases bounds
      · exact absurd rfl hne
      · rfl
    exact commit_panics_of_out_of_range ops channel config proof bounds
      hasc hne2 hr

/-- C8 witness: on the concrete descending in-range bounds `[3, 2]` with
blowup factor 1 the commit returns `Ok`. -/
theorem c8_witness :
    ∃ result, FriVerifier.commit unitChannelOps () ⟨1, 0, 1⟩ unitFriProof
      [⟨3⟩, ⟨2⟩] = .ok result :=
  (c8_fri_verifier_commit_bounds_check unitChannelOps () ⟨1, 0, 1⟩
    unitFriProof [⟨3⟩, ⟨2⟩]).2.1 (by decide) (by simp [List.chain'_cons])
    (by decide)

/-! ## C9 -/

theorem dedupConsecutive_head (xs : List Nat) (x : Nat) :
    (dedupConsecutive (x :: xs)).head? = some x := by
  induction xs generalizing x with
  | nil => rfl
  | cons b rest ih =>
    by_cases h : x = b
    · subst h
      simp [dedupConsecutive, ih]
    · simp [dedupConsecutive, h]

theorem dedupConsecutive_chain (l : List Nat)
    (h : List.Chain' (fun a b => a ≤ b) l) :
    List.Chain' (fun a b => a < b) (dedupConsecutive l) := by
  induction l with
  | nil => simp [dedupConsecutive]
  | cons a tail ih =>
    cases tail with
    | nil => simp [dedupConsecutive]
    | cons b rest =>
      rw [List.chain'_cons] at h
      obtain ⟨hab, hrest⟩ := h
      by_cases hcase : a = b
      · rw [dedupConsecutive, if_pos hcase]
        exact ih hrest
      · rw [dedupConsecutive, if_neg hcase, List.chain'_cons']
        refine ⟨?_, ih hrest⟩
        intro y hy
        rw [dedupConsecutive_head rest b] at hy
        simp only [Option.mem_def, Option.some.injEq] at hy
        subst hy
        exact Nat.lt_of_le_of_ne hab hcase

theorem dedupConsecutive_subset (l : List Nat) (x : Nat)
    (hx : x ∈ dedupConsecutive l) : x ∈ l := by
  induction l with
  | nil => simp [dedupConsecutive] at hx
  | cons a tail ih =>
    cases tail with
    | nil => simpa [dedupConsecutive] using hx
    | cons b rest =>
      by_cases hcase : a = b
      · rw [dedupConsecutive, if_pos hcase] at hx
        exact List.mem_cons_of_mem a (ih hx)
      · rw [dedupConsecutive, if_neg hcase] at hx
        rcases List.mem_cons.mp hx with h | h
        · exact h ▸ List.mem_cons_self a (b :: rest)
        · exact List.mem_cons_of_mem a (ih h)

/-- C9: folding sorted, deduplicated in-range queries by `n ≤ log` bits
shifts each position right by `n` and removes (consecutive) duplicates,
yielding a query set on the `n`-times-halved domain whose positions are
strictly sorted, unique, and below `2 ^ (log - n)`. -/
theorem c9_queries_fold_spec (q : Queries) (n : Nat)
    (hsorted : List.Chain' (fun a b => a < b) q.positions)
    (hbound : ∀ p ∈ q.positions, p < 2 ^ q.log_domain_size)
    (hn : n ≤ q.log_domain_size) :
    ∃ r, q.fold n = .ok r ∧
      r.log_domain_size = q.log_domain_size - n ∧
      r.positions =
        dedupConsecutive (q.positions.map (fun p => p >>> n)) ∧
      List.Chain' (fun a b => a < b) r.positions ∧
      r.positions.Nodup ∧
      ∀ p ∈ r.positions, p < 2 ^ (q.log_domain_size - n) := by
  have hchain :
      List.Chain' (fun a b => a < b)
        (dedupConsecutive (q.positions.map (fun p => p >>> n))) := by
    apply dedupConsecutive_chain
    rw [List.chain'_map]
    refine hsorted.imp ?_
    intro a b hab
    simp only [Nat.shiftRight_eq_div_pow]
    exact Nat.div_le_div_right (Nat.le_of_lt hab)
  refine ⟨⟨q.log_domain_size - n,
    dedupConsecutive (q.positions.map (fun p => p >>> n))⟩,
    ?_, rfl, rfl, hchain, ?_, ?_⟩
  · simp [Queries.fold, hn]
  · exact (List.chain'_iff_pairwise.mp hchain).nodup
  · intro p hp
    obtain ⟨p0, hp0, rfl⟩ :=
      List.mem_map.mp (dedupConsecutive_subset _ _ hp)
    rw [Nat.shiftRight_eq_div_pow]
    rw [Nat.div_lt_iff_lt_mul (Nat.pos_pow_of_pos n (by norm_num))]
    calc p0 < 2 ^ q.log_domain_size := hbound p0 hp0
    _ = 2 ^ (q.log_domain_size - n) * 2 ^ n := by
      rw [← pow_add]
      congr 1
      omega

/-- C9 witness: folding the sorted queries `[0, 1, 3]` on a 4-point domain
by one bit. -/
theorem c9_witness :
    (List.Chain' (fun a b => a < b) (Queries.mk 2 [0, 1, 3]).positions ∧
      (∀ p ∈ (Queries.mk 2 [0, 1, 3]).positions,
        p < 2 ^ (Queries.mk 2 [0, 1, 3]).log_domain_size) ∧
      1 ≤ (Queries.mk 2 [0, 1, 3]).log_domain_size) ∧
    (∃ r, (Queries.mk 2 [0, 1, 3]).fold 1 = .ok r ∧
      r.log_domain_size = (Queries.mk 2 [0, 1, 3]).log_domain_size - 1 ∧
      r.positions = dedupConsecutive
        ((Queries.mk 2 [0, 1, 3]).positions.map (fun p => p >>> 1)) ∧
      List.Chain' (fun a b => a < b) r.positions ∧
      r.positions.Nodup ∧
      ∀ p ∈ r.positions,
        p < 2 ^ ((Queries.mk 2 [0, 1, 3]).log_domain_size - 1)) :=
  ⟨⟨by simp [List.chain'_cons], by decide, by decide⟩,
    c9_queries_fold_spec ⟨2, [0, 1, 3]⟩ 1 (by simp [List.chain'_cons])
      (by decide) (by decide)⟩

/-! ## C10 -/

theorem reverse_bits_fuel_zero (n : Nat) : reverse_bits_fuel n 0 = 0 := by
  induction n with
  | zero => rfl
  | succ m ih => simp [reverse_bits_fuel, ih]

theorem reverse_bits_fuel_lt (n i : Nat) : reverse_bits_fuel n i < 2 ^ n := by
  induction n generalizing i with
  | zero => simp [reverse_bits_fuel]
  | succ m ih =>
    have h1 : i % 2 ≤ 1 := Nat.le_of_lt_succ (Nat.mod_lt i (by norm_num))
    have h2 := ih (i / 2)
    have h3 : i % 2 * 2 ^ m ≤ 2 ^ m := by
      calc i % 2 * 2 ^ m ≤ 1 * 2 ^ m := Nat.mul_le_mul_right _ h1
      _ = 2 ^ m := Nat.one_mul _
    simp only [reverse_bits_fuel, pow_succ]
    omega

/-- Reversing `n + 1` bits of `b * 2 ^ n + r` (top bit `b`, low bits `r`)
gives `b + 2 * (n-bit reversal of r)`. -/
theorem reverse_bits_fuel_snoc (n b r : Nat) (hb : b < 2) (hr : r < 2 ^ n) :
    reverse_bits_fuel (n + 1) (b * 2 ^ n + r) =
      b + 2 * reverse_bits_fuel n r := by
  induction n generalizing b r with
  | zero =>
    interval_cases r
    interval_cases b <;> rfl
  | succ m ih =>
    have hx2 : (b * 2 ^ (m + 1) + r) % 2 = r % 2 := by
      have : b * 2 ^ (m + 1) = b * 2 ^ m * 2 := by ring
      rw [this, Nat.add_comm, Nat.add_mul_mod_self_right]
    have hxd : (b * 2 ^ (m + 1) + r) / 2 = b * 2 ^ m + r / 2 := by
      have : b * 2 ^ (m + 1) = b * 2 ^ m * 2 := by ring
      rw [this, Nat.add_comm, Nat.add_mul_div_right _ _ (by norm_num),
        Nat.add_comm]
    have hrd : r / 2 < 2 ^ m := by
      rw [Nat.div_lt_iff_lt_mul (by norm_num)]
      calc r < 2 ^ (m + 1) := hr
      _ = 2 ^ m * 2 := by rw [pow_succ]
    calc reverse_bits_fuel (m + 1 + 1) (b * 2 ^ (m + 1) + r)
        = (b * 2 ^ (m + 1) + r) % 2 * 2 ^ (m + 1) +
          reverse_bits_fuel (m + 1) ((b * 2 ^ (m + 1) + r) / 2) := rfl
    _ = r % 2 * 2 ^ (m + 1) +
          reverse_bits_fuel (m + 1) (b * 2 ^ m + r / 2) := by
        rw [hx2, hxd]
    _ = r % 2 * 2 ^ (m + 1) + (b + 2 * reverse_bits_fuel m (r / 2)) := by
        rw [ih b (r / 2) hb hrd]
    _ = b + 2 * (r % 2 * 2 ^ m + reverse_bits_fuel m (r / 2)) := by ring
    _ = b + 2 * reverse_bits_fuel (m + 1) r := rfl

/-- Reversing the low `n` bits twice is the identity below `2 ^ n`. -/
theorem reverse_bits_fuel_involution (n : Nat) :
    ∀ i, i < 2 ^ n → reverse_bits_fuel n (reverse_bits_fuel n i) = i := by
  induction n with
  | zero =>
    intro i hi
    interval_cases i
    rfl
  | succ m ih =>
    intro i hi
    have hb : i % 2 < 2 := Nat.mod_lt i (by norm_num)
    have hid : i / 2 < 2 ^ m := by
      rw [Nat.div_lt_iff_lt_mul (by norm_num)]
      calc i < 2 ^ (m + 1) := hi
      _ = 2 ^ m * 2 := by rw [pow_succ]
    have hr : reverse_bits_fuel m (i / 2) < 2 ^ m := reverse_bits_fuel_lt m _
    calc reverse_bits_fuel (m + 1) (reverse_bits_fuel (m + 1) i)
        = reverse_bits_fuel (m + 1)
          (i % 2 * 2 ^ m + reverse_bits_fuel m (i / 2)) := rfl
    _ = i % 2 + 2 * reverse_bits_fuel m (reverse_bits_fuel m (i / 2)) :=
        reverse_bits_fuel_snoc m (i % 2) _ hb hr
    _ = i % 2 + 2 * (i / 2) := by rw [ih (i / 2) hid]
    _ = i := by omega

/-- Reversing `m + k` bits of a value below `2 ^ m` shifts the `m`-bit
reversal up by `k` bits. -/
theorem reverse_bits_fuel_split (m : Nat) :
    ∀ k i, i < 2 ^ m →
      reverse_bits_fuel (m + k) i = 2 ^ k * reverse_bits_fuel m i := by
  induction m with
  | zero =>
    intro k i hi
    interval_cases i
    rw [reverse_bits_fuel_zero, reverse_bits_fuel_zero, Nat.mul_zero]
  | succ m ih =>
    intro k i hi
    have hid : i / 2 < 2 ^ m := by
      rw [Nat.div_lt_iff_lt_mul (by norm_num)]
      calc i < 2 ^ (m + 1) := hi
      _ = 2 ^ m * 2 := by rw [pow_succ]
    have hstep : m + 1 + k = (m + k) + 1 := by omega
    calc reverse_bits_fuel (m + 1 + k) i
        = reverse_bits_fuel ((m + k) + 1) i := by rw [hstep]
    _ = i % 2 * 2 ^ (m + k) + reverse_bits_fuel (m + k) (i / 2) := rfl
    _ = i % 2 * 2 ^ (m + k) + 2 ^ k * reverse_bits_fuel m (i / 2) := by
        rw [ih k (i / 2) hid]
    _ = 2 ^ k * (i % 2 * 2 ^ m + reverse_bits_fuel m (i / 2)) := by
        rw [pow_add]
        ring
    _ = 2 ^ k * reverse_bits_fuel (m + 1) i := rfl

/-- For in-range inputs, `bit_reverse_index` coincides with reversal of the
low `log_size` bits. -/
theorem bit_reverse_index_eq_fuel (i log_size : Nat) (hi : i < 2 ^ log_size)
    (hlog : log_size ≤ USIZE_BITS) :
    bit_reverse_index i log_size = reverse_bits_fuel log_size i := by
  by_cases h0 : log_size = 0
  · subst h0
    rw [bit_reverse_index, if_pos rfl]
    show i = 0
    omega
  · rw [bit_reverse_index, if_neg h0, usize_reverse_bits,
      Nat.shiftRight_eq_div_pow]
    have hmod : i % 2 ^ 64 = i := by
      apply Nat.mod_eq_of_lt
      calc i < 2 ^ log_size := hi
      _ ≤ 2 ^ 64 := Nat.pow_le_pow_right (by norm_num) hlog
    have hsplit : (64 : Nat) = log_size + (64 - log_size) := by
      have : log_size ≤ 64 := hlog
      omega
    have key : reverse_bits_fuel 64 i =
        2 ^ (64 - log_size) * reverse_bits_fuel log_size i := by
      have h := reverse_bits_fuel_split log_size (64 - log_size) i hi
      rwa [← hsplit] at h
    rw [hmod, USIZE_BITS, key]
    exact Nat.mul_div_cancel_left _
      (Nat.pos_pow_of_pos _ (by norm_num : (0 : Nat) < 2))

/-- C10: `bit_reverse_index` is an involution on `log_size`-bit indices, is
the identity at `log_size = 0`, and otherwise equals
`i.reverse_bits() >> (usize::BITS - log_size)`. -/
theorem c10_bit_reverse_index_involution (i log_size : Nat)
    (hi : i < 2 ^ log_size) (hlog : log_size ≤ USIZE_BITS) :
    bit_reverse_index (bit_reverse_index i log_size) log_size = i ∧
    (∀ j, bit_reverse_index j 0 = j) ∧
    (0 < log_size → bit_reverse_index i log_size =
      usize_reverse_bits i >>> (USIZE_BITS - log_size)) := by
  refine ⟨?_, fun j => rfl, fun hpos => ?_⟩
  · rw [bit_reverse_index_eq_fuel i log_size hi hlog,
      bit_reverse_index_eq_fuel _ log_size (reverse_bits_fuel_lt _ _) hlog]
    exact reverse_bits_fuel_involution log_size i hi
  · rw [bit_reverse_index, if_neg (Nat.pos_iff_ne_zero.mp hpos)]

/-! ## C6 -/

/-- C6 counterexample: with two committed trees of column log sizes 4 and 3
and `log_blowup_factor = 1`, the per-log-size bound list the claim describes
is `[3, 2]`, but `verify_values` hands `FriVerifier::commit` only the
singleton `[3]` (the maximum), so the stored column bounds are `[3]`, not
`[3, 2]`. -/
theorem c6_counterexample :
    verify_values_fri_bounds twoTreesScheme.committed_trees
      twoTreesScheme.config.fri_config.log_blowup_factor = [⟨3⟩, ⟨2⟩] ∧
    ∃ fv ch,
      FriVerifier.commit unitChannelOps ()
        twoTreesScheme.config.fri_config unitFriProof
        (verify_values_fri_verifier_bounds twoTreesScheme.committed_trees
          twoTreesScheme.config.fri_config.log_blowup_factor) =
        .ok (fv, ch) ∧
      fv.column_bounds = [⟨3⟩] ∧
      fv.column_bounds ≠
        verify_values_fri_bounds twoTreesScheme.committed_trees
          twoTreesScheme.config.fri_config.log_blowup_factor :=
  ⟨rfl, _, _, rfl, rfl, by decide⟩

/-- C6 (amended): for every commitment scheme with at least one committed
tree whose single effective degree bound plus the blowup factor stays
within the 31-bit circle order, `verify_values` passes `FriVerifier::commit`
a single degree bound — the maximum over the distinct column log sizes of
`log_size` minus `log_blowup_factor` (0 when there are no columns) — the
commit succeeds on that singleton, and the resulting verifier's stored
column bounds equal exactly that one-element list. -/
theorem c6_verify_values_passes_singleton_max_bound {σ H : Type}
    (ops : ChannelOps σ H) (channel : σ)
    (scheme : CommitmentSchemeVerifier H) (proof : FriProof H)
    (_h : scheme.committed_trees ≠ [])
    (hrange : verify_values_effective_bound scheme.committed_trees
        scheme.config.fri_config.log_blowup_factor +
      scheme.config.fri_config.log_blowup_factor ≤
        M31_CIRCLE_LOG_ORDER) :
    ∃ fv ch,
      FriVerifier.commit ops channel scheme.config.fri_config proof
        (verify_values_fri_verifier_bounds scheme.committed_trees
          scheme.config.fri_config.log_blowup_factor) = .ok (fv, ch) ∧
      fv.column_bounds =
        [⟨(((verify_values_fri_bounds scheme.committed_trees
            scheme.config.fri_config.log_blowup_factor).map
          (fun b => b.log_degree_bound)).max?).getD 0⟩] := by
  obtain ⟨fv, ch, hok, hcb⟩ := commit_ok_of_in_range ops channel
    scheme.config.fri_config proof
    (verify_values_fri_verifier_bounds scheme.committed_trees
      scheme.config.fri_config.log_blowup_factor) rfl rfl
    (by
      intro b hb
      simp only [verify_values_fri_verifier_bounds,
        List.mem_singleton] at hb
      subst hb
      exact hrange)
  exact ⟨fv, ch, hok, by rw [hcb]; rfl⟩

/-- C6 witness: the amended claim applied to the concrete two-tree scheme
(column log sizes 4 and 3, blowup 1: the effective bound 3 is in range). -/
theorem c6_witness :
    twoTreesScheme.committed_trees ≠ [] ∧
    verify_values_effective_bound twoTreesScheme.committed_trees
        twoTreesScheme.config.fri_config.log_blowup_factor +
      twoTreesScheme.config.fri_config.log_blowup_factor ≤
        M31_CIRCLE_LOG_ORDER ∧
    ∃ fv ch,
      FriVerifier.commit unitChannelOps ()
        twoTreesScheme.config.fri_config unitFriProof
        (verify_values_fri_verifier_bounds twoTreesScheme.committed_trees
          twoTreesScheme.config.fri_config.log_blowup_factor) =
        .ok (fv, ch) ∧
      fv.column_bounds =
        [⟨(((verify_values_fri_bounds twoTreesScheme.committed_trees
            twoTreesScheme.config.fri_config.log_blowup_factor).map
          (fun b => b.log_degree_bound)).max?).getD 0⟩] :=
  ⟨List.cons_ne_nil _ _, by decide,
    c6_verify_values_passes_singleton_max_bound unitChannelOps ()
      twoTreesScheme unitFriProof (List.cons_ne_nil _ _) (by decide)⟩

/-! ## C7 auxiliary lemmas: no function below the proof-of-work check ever
produces the `ProofOfWork` error.  `NoPow r` says the outcome `r` is not
`Err(ProofOfWork)`; every error constructed after the check is either a
panic or a different error kind, and these lemmas push that fact through
every function `verify_values` runs after the check. -/

abbrev NoPow {α : Type} (r : Except RunErr α) : Prop :=
  r ≠ .error (.ve .ProofOfWork)

theorem noPow_ok {α : Type} (a : α) : NoPow (.ok a) := by
  intro h
  exact Except.noConfusion h

theorem noPow_error {α : Type} {e : RunErr} (h : e ≠ .ve .ProofOfWork) :
    NoPow (.error e : Except RunErr α) := by
  intro hc
  injection hc with h2
  exact h h2

theorem noPow_panicked {α : Type} :
    NoPow (.error .panicked : Except RunErr α) := by
  apply noPow_error
  intro h
  exact RunErr.noConfusion h

theorem noPow_invalid {α : Type} (msg : String) :
    NoPow (.error (.ve (.InvalidStructure msg)) : Except RunErr α) := by
  apply noPow_error
  intro h
  injection h with h2
  exact VerificationError.noConfusion h2

theorem noPow_insufficient {α : Type} :
    NoPow (.error (.ve .FriInsufficientWitness) : Except RunErr α) := by
  apply noPow_error
  intro h
  injection h with h2
  exact VerificationError.noConfusion h2

theorem except_bind_error {α β : Type} (e : RunErr)
    (f : α → Except RunErr β) :
    ((Except.error e : Except RunErr α) >>= f) = .error e := rfl

theorem except_bind_ok {α β : Type} (a : α) (f : α → Except RunErr β) :
    ((Except.ok a : Except RunErr α) >>= f) = f a := rfl

theorem noPow_bind {α β : Type} {x : Except RunErr α}
    {f : α → Except RunErr β} (hx : NoPow x) (hf : ∀ a, NoPow (f a)) :
    NoPow (x >>= f) := by
  cases x with
  | error e =>
    rw [except_bind_error]
    refine noPow_error (fun h => hx ?_)
    rw [h]
  | ok a =>
    rw [except_bind_ok]
    exact hf a

theorem noPow_mapM {α β : Type} (f : α → Except RunErr β)
    (hf : ∀ a, NoPow (f a)) (l : List α) : NoPow (l.mapM f) := by
  induction l with
  | nil => exact noPow_ok []
  | cons a rest ih =>
    rw [List.mapM_cons]
    exact noPow_bind (hf a) (fun b => noPow_bind ih (fun bs => noPow_ok _))

theorem noPow_ite {α : Type} (c : Prop) [Decidable c]
    {x y : Except RunErr α} (hx : NoPow x) (hy : NoPow y) :
    NoPow (if c then x else y) := by
  by_cases h : c
  · rwa [if_pos h]
  · rwa [if_neg h]

theorem noPow_subgroup_gen (log_size : Nat) :
    NoPow (CirclePointIndex.subgroup_gen log_size) := by
  unfold CirclePointIndex.subgroup_gen
  exact noPow_ite _ (noPow_ok _) noPow_panicked

theorem noPow_coset_new (initial_index log_size : Nat) :
    NoPow (Coset.new initial_index log_size) := by
  unfold Coset.new
  refine noPow_ite _ ?_ noPow_panicked
  exact noPow_bind (noPow_subgroup_gen _) (fun _ => noPow_ok _)

theorem noPow_circle_domain_new (log_size : Nat) :
    NoPow (CircleDomain.new log_size) := by
  unfold CircleDomain.new
  exact noPow_bind (noPow_coset_new _ _) (fun _ => noPow_ok _)

theorem noPow_half_odds (log_size : Nat) :
    NoPow (Coset.half_odds log_size) := by
  unfold Coset.half_odds
  exact noPow_bind (noPow_subgroup_gen _) (fun _ => noPow_coset_new _ _)

theorem noPow_coset_double (c : Coset) : NoPow c.double := by
  unfold Coset.double
  exact noPow_ite _ (noPow_ok _) noPow_panicked

theorem noPow_repeated_double (n : Nat) :
    ∀ c : Coset, NoPow (c.repeated_double n) := by
  induction n with
  | zero => intro c; exact noPow_ok _
  | succ m ih =>
    intro c
    rw [Coset.repeated_double]
    exact noPow_bind (noPow_coset_double c) (fun c2 => ih c2)

theorem noPow_line_domain_double (d : LineDomain) : NoPow d.double := by
  unfold LineDomain.double
  exact noPow_bind (noPow_coset_double _) (fun _ => noPow_ok _)

theorem noPow_line_evaluation_new (d : LineDomain) (values : List QM31) :
    NoPow (LineEvaluation.new d values) := by
  unfold LineEvaluation.new
  exact noPow_ite _ (noPow_ok _) noPow_panicked

theorem noPow_sparse_new (se : List (List QM31)) (idx : List Nat) :
    NoPow (SparseEvaluation.new se idx) := by
  unfold SparseEvaluation.new
  exact noPow_ite _ (noPow_ok _) noPow_panicked

theorem noPow_queries_fold (q : Queries) (n : Nat) : NoPow (q.fold n) := by
  unfold Queries.fold
  exact noPow_ite _ (noPow_ok _) noPow_panicked

theorem noPow_inverse_checked (a : M31) : NoPow (M31.inverse_checked a) := by
  unfold M31.inverse_checked
  exact noPow_ite _ noPow_panicked (noPow_ok _)

theorem noPow_circle_domain_at (d : CircleDomain) (index : Nat) :
    NoPow (d.at index) := by
  unfold CircleDomain.at
  exact noPow_bind (noPow_coset_new _ _) (fun _ => noPow_ok _)

theorem noPow_subset_eval_loop :
    ∀ (positions sq : List Nat) (qe we : List QM31),
      NoPow (subset_eval_loop positions sq qe we)
  | [], _, _, _ => noPow_ok _
  | _ :: _, [], _, [] => noPow_insufficient
  | _ :: rest, [], qe, _ :: wetail =>
    noPow_bind (noPow_subset_eval_loop rest [] qe wetail)
      (fun _ => noPow_ok _)
  | pos :: rest, q :: sqtail, qe, we =>
    noPow_ite (q = pos)
      (match qe with
       | [] => noPow_invalid _
       | _ :: qetail =>
         noPow_bind (noPow_subset_eval_loop rest sqtail qetail we)
           (fun _ => noPow_ok _))
      (match we with
       | [] => noPow_insufficient
       | _ :: wetail =>
         noPow_bind (noPow_subset_eval_loop rest (q :: sqtail) qe wetail)
           (fun _ => noPow_ok _))

theorem noPow_process_subset (subset_start : Nat) (subset_queries : List Nat)
    (fold_step_size : Nat) (query_evals witness_evals : List QM31)
    (log_domain_size : Nat) :
    NoPow (process_subset subset_start subset_queries fold_step_size
      query_evals witness_evals log_domain_size) := by
  unfold process_subset
  refine noPow_bind (noPow_subset_eval_loop _ _ _ _) ?_
  rintro ⟨es, qe2, we2⟩
  exact noPow_ok _

theorem noPow_rebuild_groups_loop (fold_step log_domain_size : Nat)
    (positions : List Nat) :
    ∀ group cur qe we accP accE accI,
      NoPow (rebuild_groups_loop fold_step log_domain_size positions group
        cur qe we accP accE accI) := by
  induction positions with
  | nil =>
    intro group cur qe we accP accE accI
    rw [rebuild_groups_loop]
    split
    · exact noPow_ok _
    · refine noPow_bind (noPow_process_subset _ _ _ _ _ _) ?_
      rintro ⟨es, qe2, we2, ps, bi⟩
      exact noPow_ok _
  | cons q rest ih =>
    intro group cur qe we accP accE accI
    rw [rebuild_groups_loop]
    split
    · exact ih _ _ _ _ _ _ _
    · refine noPow_bind (noPow_process_subset _ _ _ _ _ _) ?_
      rintro ⟨es, qe2, we2, ps, bi⟩
      exact ih _ _ _ _ _ _ _

theorem noPow_compute_decommitment (queries : Queries)
    (query_evals witness_evals : List QM31) (fold_step : Nat) :
    NoPow (compute_decommitment_positions_and_rebuild_evals queries
      query_evals witness_evals fold_step) := by
  unfold compute_decommitment_positions_and_rebuild_evals
  refine noPow_bind (noPow_rebuild_groups_loop _ _ _ _ _ _ _ _ _ _) ?_
  rintro ⟨accP, accE, accI, qe_rem, we_rem⟩
  refine noPow_ite _ (noPow_invalid _) ?_
  exact noPow_bind (noPow_sparse_new _ _) (fun _ => noPow_ok _)

theorem noPow_fold_line_loop (domain : LineDomain) (alpha : QM31)
    (pairs : List (QM31 × QM31)) :
    ∀ i, NoPow (fold_line_loop domain alpha pairs i) := by
  induction pairs with
  | nil =>
    intro i
    exact noPow_ok _
  | cons p rest ih =>
    intro i
    obtain ⟨f_x, f_neg_x⟩ := p
    rw [fold_line_loop]
    refine noPow_bind (noPow_inverse_checked _) (fun x_inv => ?_)
    exact noPow_bind (ih _) (fun tail => noPow_ok _)

theorem noPow_fold_line (eval : LineEvaluation) (alpha : QM31) :
    NoPow (fold_line eval alpha) := by
  unfold fold_line
  refine noPow_ite _ noPow_panicked (noPow_ite _ noPow_panicked ?_)
  refine noPow_bind (noPow_fold_line_loop _ _ _ _) (fun folded => ?_)
  refine noPow_bind (noPow_line_domain_double _) (fun d2 => ?_)
  exact noPow_line_evaluation_new _ _

theorem noPow_fold_line_m (se : SparseEvaluation) (fold_alpha : QM31)
    (source_domain : LineDomain) :
    NoPow (se.fold_line_m fold_alpha source_domain) := by
  unfold SparseEvaluation.fold_line_m
  apply noPow_mapM
  intro ev_idx
  refine noPow_ite _ noPow_panicked ?_
  refine noPow_bind (noPow_repeated_double _ _) (fun subset_coset => ?_)
  refine noPow_bind (noPow_coset_new _ _) (fun fold_coset => ?_)
  refine noPow_bind (noPow_line_evaluation_new _ _) (fun line_eval => ?_)
  exact noPow_bind (noPow_fold_line _ _) (fun folded => noPow_ok _)

theorem invalid_ne_pow (msg : String) :
    RunErr.ve (.InvalidStructure msg) ≠ RunErr.ve .ProofOfWork := by
  intro h
  injection h with h2
  exact VerificationError.noConfusion h2

theorem insufficient_ne_pow :
    RunErr.ve .FriInsufficientWitness ≠ RunErr.ve .ProofOfWork := by
  intro h
  injection h with h2
  exact VerificationError.noConfusion h2

theorem noPow_dite {α : Type} (c : Prop) [Decidable c]
    {x : c → Except RunErr α} {y : ¬ c → Except RunErr α}
    (hx : ∀ h, NoPow (x h)) (hy : ∀ h, NoPow (y h)) :
    NoPow (dite c x y) := by
  by_cases h : c
  · rw [dif_pos h]
    exact hx h
  · rw [dif_neg h]
    exact hy h

theorem noPow_take_values {α : Type} (e : RunErr)
    (he : e ≠ .ve .ProofOfWork) :
    ∀ (n : Nat) (l : List α), NoPow (take_values e n l)
  | 0, _ => noPow_ok _
  | _ + 1, [] => noPow_error he
  | n + 1, _ :: rest =>
    noPow_bind (noPow_take_values e he n rest) (fun _ => noPow_ok _)

set_option linter.unusedTactic false in
theorem noPow_merkle_layer_loop {H : Type} (hasher : MerkleHasherOps H)
    (is_leaf : Bool) (n_columns_in_layer : Nat) (prev_head : Option Nat) :
    ∀ (fuel : Nat) (layer_queries : List Nat)
      (current_hashes next_hashes : NatMap H) (hash_witness : List H)
      (column_witness queried_values : List M31),
      NoPow (merkle_layer_loop hasher is_leaf n_columns_in_layer prev_head
        fuel layer_queries current_hashes next_hashes hash_witness
        column_witness queried_values) := by
  intro fuel
  induction fuel with
  | zero =>
    intro layer_queries current_hashes next_hashes hash_witness
      column_witness queried_values
    exact noPow_panicked
  | succ f ih =>
    intro layer_queries current_hashes next_hashes hash_witness
      column_witness queried_values
    rw [merkle_layer_loop]
    cases next_decommitment_node prev_head layer_queries with
    | none => exact noPow_ok _
    | some node_index =>
      simp only []
      refine noPow_ite _ ?_ ?_
      repeat
        any_goals first
        | exact noPow_ok _
        | exact noPow_insufficient
        | exact ih _ _ _ _ _ _
        | (rw [except_bind_error]
           exact noPow_insufficient)
        | rw [except_bind_ok]
        | (refine noPow_bind
            (noPow_take_values _ (invalid_ne_pow _) _ _) ?_
           intro a)
        | (refine noPow_bind
            (noPow_take_values _ insufficient_ne_pow _ _) ?_
           intro a)
        | refine noPow_ite _ ?_ ?_
        | split

theorem noPow_merkle_layers_loop {H : Type} (hasher : MerkleHasherOps H)
    (max_log_size : Nat) (n_columns_per_log_size : NatMap Nat)
    (queries_per_log_size : NatMap (List Nat)) :
    ∀ (layers : List Nat) (current_hashes : NatMap H)
      (hash_witness : List H) (column_witness queried_values : List M31),
      NoPow (merkle_layers_loop hasher max_log_size n_columns_per_log_size
        queries_per_log_size layers current_hashes hash_witness
        column_witness queried_values)
  | [], _, _, _, _ => noPow_ok _
  | _ :: rest, _, _, _, _ =>
    noPow_bind (noPow_merkle_layer_loop hasher _ _ _ _ _ _ _ _ _ _)
      (fun a =>
        match a with
        | (_, _, _, _) =>
          noPow_merkle_layers_loop hasher max_log_size
            n_columns_per_log_size queries_per_log_size rest _ _ _ _)

theorem noPow_merkle_verify {H : Type} [DecidableEq H]
    (hasher : MerkleHasherOps H) (v : MerkleVerifier H)
    (queries_per_log_size : NatMap (List Nat)) (queried_values : List M31)
    (decommitment : MerkleDecommitment H) :
    NoPow (v.verify hasher queries_per_log_size queried_values
      decommitment) := by
  rw [MerkleVerifier.verify]
  cases v.column_log_sizes.max? with
  | none => exact noPow_ite _ (noPow_ok _) (noPow_invalid _)
  | some max_log_size =>
    refine noPow_bind (noPow_merkle_layers_loop hasher _ _ _ _ _ _ _ _) ?_
    rintro ⟨current_hashes, hw, cw, qr⟩
    refine noPow_ite _ (noPow_invalid _) ?_
    refine noPow_ite _ (noPow_invalid _) ?_
    refine noPow_ite _ (noPow_invalid _) ?_
    exact noPow_ite _ (noPow_invalid _) (noPow_ok _)

theorem noPow_generate_loop {σ H : Type} (ops : ChannelOps σ H)
    (domain_size n_queries : Nat) :
    ∀ (fuel : Nat) (channel : σ) (positions : List Nat) (i : Nat),
      NoPow (generate_loop ops domain_size n_queries fuel channel positions
        i)
  | 0, _, _, _ => noPow_panicked
  | fuel + 1, _, _, _ =>
    noPow_ite _
      (noPow_ite _ noPow_panicked
        (noPow_generate_loop ops domain_size n_queries fuel _ _ _))
      (noPow_ok _)

theorem noPow_queries_generate {σ H : Type} (ops : ChannelOps σ H)
    (channel : σ) (log_domain_size n_queries : Nat) :
    NoPow (Queries.generate ops channel log_domain_size n_queries) := by
  rw [Queries.generate]
  refine noPow_ite _ noPow_panicked ?_
  refine noPow_bind (noPow_generate_loop ops _ _ _ _ _ _) ?_
  rintro ⟨positions, ch⟩
  exact noPow_ok _

theorem noPow_foldlM {α β : Type} (f : β → α → Except RunErr β)
    (hf : ∀ b a, NoPow (f b a)) :
    ∀ (l : List α) (init : β), NoPow (l.foldlM f init)
  | [], _ => noPow_ok _
  | a :: rest, b =>
    noPow_bind (hf b a) (fun b2 => noPow_foldlM f hf rest b2)

theorem noPow_get_query_positions (queries : Queries)
    (column_log_sizes : List Nat) :
    NoPow (get_query_positions_by_log_size queries column_log_sizes) := by
  rw [get_query_positions_by_log_size]
  apply noPow_foldlM
  intro positions log_size
  exact noPow_bind (noPow_queries_fold _ _) (fun _ => noPow_ok _)

theorem noPow_sample_query_positions {σ H : Type} (ops : ChannelOps σ H)
    (fv : FriVerifier H) (channel : σ) (column_log_sizes : List Nat) :
    NoPow (fv.sample_query_positions ops channel column_log_sizes) := by
  rw [FriVerifier.sample_query_positions]
  refine noPow_bind (noPow_queries_generate ops _ _ _) ?_
  rintro ⟨queries, ch⟩
  exact noPow_bind (noPow_get_query_positions _ _) (fun _ => noPow_ok _)

theorem noPow_ve {α : Type} {e : VerificationError}
    (h : e ≠ .ProofOfWork) :
    NoPow (.error (.ve e) : Except RunErr α) := by
  apply noPow_error
  intro h2
  injection h2 with h3
  exact h h3

theorem noPow_accumulate_row_quotients
    (sample_batches : List ColumnSampleBatch)
    (queried_values_at_row : List M31) (qc : QuotientConstants)
    (domain_point : CirclePoint M31) :
    NoPow (accumulate_row_quotients sample_batches queried_values_at_row qc
      domain_point) := by
  rw [accumulate_row_quotients_eq_zero]
  exact noPow_ok _

theorem noPow_complex_conjugate_line_coeffs (sample : PointSample)
    (alpha : QM31) :
    NoPow (complex_conjugate_line_coeffs sample alpha) := by
  rw [complex_conjugate_line_coeffs]
  exact noPow_ite _ noPow_panicked (noPow_ok _)

theorem noPow_column_line_coeffs_loop (random_coeff : QM31)
    (pt : CirclePoint QM31) :
    ∀ (l : List (Nat × QM31)) (alpha : QM31),
      NoPow (column_line_coeffs_loop random_coeff pt l alpha)
  | [], _ => noPow_ok _
  | _ :: rest, _ =>
    noPow_bind (noPow_complex_conjugate_line_coeffs _ _)
      (fun _ => noPow_bind
        (noPow_column_line_coeffs_loop random_coeff pt rest _)
        (fun _ => noPow_ok _))

theorem noPow_column_line_coeffs (sample_batches : List ColumnSampleBatch)
    (random_coeff : QM31) :
    NoPow (column_line_coeffs sample_batches random_coeff) := by
  rw [column_line_coeffs]
  exact noPow_mapM _ (fun sb => noPow_column_line_coeffs_loop _ _ _ _) _

theorem noPow_quotient_constants (sample_batches : List ColumnSampleBatch)
    (random_coeff : QM31) :
    NoPow (quotient_constants sample_batches random_coeff) := by
  rw [quotient_constants]
  exact noPow_bind (noPow_column_line_coeffs _ _) (fun _ => noPow_ok _)

theorem noPow_row_values_loop (n_columns_for_group : List Nat) :
    ∀ (l : List (Nat × Nat)) (iters : List (List M31)),
      NoPow (row_values_loop n_columns_for_group l iters) := by
  intro l
  induction l with
  | nil =>
    intro iters
    exact noPow_ok _
  | cons gc rest ih =>
    intro iters
    obtain ⟨gi, ci⟩ := gc
    rw [row_values_loop]
    cases n_columns_for_group.get? gi with
    | none => exact noPow_panicked
    | some n =>
      refine noPow_ite _ ?_ (ih _)
      cases iters.get? ci with
      | none => exact noPow_panicked
      | some iter =>
        cases iter with
        | nil => exact noPow_invalid _
        | cons v t =>
          refine noPow_bind (ih _) ?_
          rintro ⟨vs, consumed, iters2⟩
          exact noPow_ok _

theorem noPow_fri_answers_queries_loop
    (sample_batches : List ColumnSampleBatch) (qc : QuotientConstants)
    (commitment_domain : CircleDomain) (column_indices : List Nat)
    (n_columns_for_group : List Nat) (log_size : Nat) :
    ∀ (l : List Nat) (iters : List (List M31)),
      NoPow (fri_answers_queries_loop sample_batches qc commitment_domain
        column_indices n_columns_for_group log_size l iters) := by
  intro l
  induction l with
  | nil =>
    intro iters
    exact noPow_ok _
  | cons q rest ih =>
    intro iters
    rw [fri_answers_queries_loop]
    refine noPow_bind (noPow_circle_domain_at _ _) (fun dp => ?_)
    refine noPow_bind (noPow_row_values_loop _ _ _) ?_
    rintro ⟨row, consumed, iters2⟩
    refine noPow_ite _ (noPow_invalid _) ?_
    refine noPow_bind (noPow_accumulate_row_quotients _ _ _ _) (fun acc => ?_)
    refine noPow_bind (ih _) ?_
    rintro ⟨tail, iters3⟩
    exact noPow_ok _

theorem noPow_fri_answers_for_log_size (log_size : Nat)
    (samples : List (List PointSample)) (column_indices : List Nat)
    (random_coeff : QM31) (query_positions : List Nat)
    (queried_values_iters : List (List M31))
    (n_columns_for_group : List Nat) :
    NoPow (fri_answers_for_log_size log_size samples column_indices
      random_coeff query_positions queried_values_iters
      n_columns_for_group) := by
  rw [fri_answers_for_log_size]
  refine noPow_bind (noPow_quotient_constants _ _) (fun qc => ?_)
  refine noPow_bind (noPow_circle_domain_new _) (fun d => ?_)
  exact noPow_fri_answers_queries_loop _ _ _ _ _ _ _ _

theorem noPow_n_columns_for_group_loop (cls : List (List Nat))
    (n_cols_ref : List (NatMap Nat)) (log_size : Nat) :
    ∀ (indices : List Nat) (counter tree_idx : Nat),
      NoPow (n_columns_for_group_loop cls n_cols_ref log_size indices
        counter tree_idx) := by
  intro indices
  induction indices with
  | nil =>
    intro counter tree_idx
    exact noPow_ok _
  | cons oi rest ih =>
    intro counter tree_idx
    rw [n_columns_for_group_loop]
    refine noPow_dite _ (fun h => ?_) (fun h => noPow_invalid _)
    exact noPow_bind (ih _ _) (fun tail => noPow_ok _)

theorem noPow_fri_answers_main_loop (cls : List (List Nat))
    (n_cols_ref : List (NatMap Nat)) (qpls : NatMap (List Nat))
    (random_coeff : QM31) (flat_samples : List (List PointSample))
    (indices_by_log_size : NatMap (List Nat)) :
    ∀ (l : List Nat) (iters : List (List M31))
      (results : NatMap (List QM31)),
      NoPow (fri_answers_main_loop cls n_cols_ref qpls random_coeff
        flat_samples indices_by_log_size l iters results) := by
  intro l
  induction l with
  | nil =>
    intro iters results
    exact noPow_ok _
  | cons log_size rest ih =>
    intro iters results
    rw [fri_answers_main_loop]
    cases natMapGet indices_by_log_size log_size with
    | none => exact noPow_panicked
    | some indices =>
      split
      all_goals try contradiction
      rw [except_bind_ok]
      refine noPow_bind
        (noPow_mapM _ (fun i => ?_) _) (fun current_samples => ?_)
      · cases flat_samples.get? i with
        | none => exact noPow_panicked
        | some s => exact noPow_ok _
      · refine noPow_bind (noPow_n_columns_for_group_loop _ _ _ _ _ _)
          (fun ncols => ?_)
        cases natMapGet qpls log_size with
        | none => exact ih _ _
        | some query_positions =>
          refine noPow_bind (noPow_fri_answers_for_log_size _ _ _ _ _ _ _)
            ?_
          rintro ⟨answers, iters2⟩
          exact ih _ _

theorem noPow_fri_answers (column_log_sizes : List (List Nat))
    (samples : List (List (List PointSample))) (random_coeff : QM31)
    (query_positions_per_log_size : NatMap (List Nat))
    (queried_values : List (List M31))
    (n_columns_per_log_size : List (NatMap Nat)) :
    NoPow (fri_answers column_log_sizes samples random_coeff
      query_positions_per_log_size queried_values
      n_columns_per_log_size) := by
  rw [fri_answers]
  refine noPow_bind (noPow_fri_answers_main_loop _ _ _ _ _ _ _ _ _) ?_
  rintro ⟨results, iters⟩
  exact noPow_ite _ (noPow_invalid _) (noPow_ok _)

theorem noPow_reassemble_samples
    (points : List (List (List (CirclePoint QM31))))
    (sampled_values : List (List (List QM31))) :
    NoPow (reassemble_samples points sampled_values) := by
  rw [reassemble_samples]
  apply noPow_mapM
  intro tree
  refine noPow_ite _ (noPow_invalid _) ?_
  apply noPow_mapM
  intro col
  exact noPow_ite _ (noPow_invalid _) (noPow_ok _)

theorem noPow_decommit_first_layer {H : Type} [DecidableEq H]
    (hasher : MerkleHasherOps H) (fv : FriVerifier H) (queries : Queries)
    (evals : List QM31) :
    NoPow (fv.decommit_first_layer hasher queries evals) := by
  rw [FriVerifier.decommit_first_layer]
  cases fv.first_layer_proof with
  | none =>
    first
    | exact noPow_invalid _
    | (rw [except_bind_error]
       exact noPow_invalid _)
  | some p =>
    split
    all_goals try contradiction
    rw [except_bind_ok]
    simp only []
    refine noPow_ite _ (noPow_invalid _) ?_
    refine noPow_bind (noPow_compute_decommitment _ _ _ _) ?_
    rintro ⟨positions, sparse⟩
    simp only []
    cases fv.column_commitment_domains.head? with
    | none =>
      first
      | exact noPow_panicked
      | (rw [except_bind_error]
         exact noPow_panicked)
    | some d =>
      split
      all_goals try contradiction
      rw [except_bind_ok]
      exact noPow_bind (noPow_merkle_verify _ _ _ _ _)
        (fun u => noPow_ok _)

theorem noPow_inner_layers_loop {H : Type} [DecidableEq H]
    (hasher : MerkleHasherOps H) (folding_alphas : List QM31) :
    ∀ (layers : List (FriLayerProof H)) (layer_index : Nat)
      (layer_queries : Queries) (layer_query_evals : List QM31)
      (bound : LinePolyDegreeBound) (domain : LineDomain),
      NoPow (inner_layers_loop hasher folding_alphas layers layer_index
        layer_queries layer_query_evals bound domain) := by
  intro layers
  induction layers with
  | nil =>
    intro layer_index layer_queries layer_query_evals bound domain
    exact noPow_ok _
  | cons lp rest ih =>
    intro layer_index layer_queries layer_query_evals bound domain
    rw [inner_layers_loop]
    cases folding_alphas.get? (layer_index + 1) with
    | none =>
      first
      | exact noPow_panicked
      | (rw [except_bind_error]
         exact noPow_panicked)
    | some alpha =>
      split
      all_goals try contradiction
      rw [except_bind_ok]
      try simp only []
      refine noPow_bind (noPow_queries_fold _ _) (fun nq => ?_)
      try simp only []
      cases bound.fold FOLD_STEP with
      | none =>
        first
        | exact noPow_invalid _
        | (rw [except_bind_error]
           exact noPow_invalid _)
      | some bound2 =>
        split
        all_goals try contradiction
        rw [except_bind_ok]
        refine noPow_bind (noPow_compute_decommitment _ _ _ _) ?_
        rintro ⟨positions, sparse⟩
        refine noPow_bind (noPow_merkle_verify _ _ _ _ _) (fun u => ?_)
        refine noPow_bind (noPow_fold_line_m _ _ _) (fun evals2 => ?_)
        refine noPow_bind (noPow_line_domain_double _) (fun dom2 => ?_)
        exact ih _ _ _ _ _

theorem noPow_decommit_inner_layers {H : Type} [DecidableEq H]
    (hasher : MerkleHasherOps H) (fv : FriVerifier H)
    (layer_queries : Queries) (first_layer_evals : List SparseEvaluation) :
    NoPow (fv.decommit_inner_layers hasher layer_queries
      first_layer_evals) := by
  rw [FriVerifier.decommit_inner_layers]
  cases fv.column_bounds.head? with
  | none =>
    first
    | exact noPow_panicked
    | (rw [except_bind_error]
       exact noPow_panicked)
  | some bound0 =>
    split
    all_goals try contradiction
    rw [except_bind_ok]
    try simp only []
    refine noPow_bind (noPow_half_odds _) (fun half => ?_)
    try simp only []
    cases first_layer_evals.head? with
    | none =>
      rw [except_bind_ok]
      exact noPow_inner_layers_loop _ _ _ _ _ _ _ _
    | some fes =>
      cases fv.folding_alphas.head? with
      | none =>
        first
        | exact noPow_panicked
        | (rw [except_bind_error]
           exact noPow_panicked)
      | some alpha0 =>
        split
        all_goals try contradiction
        try (split
             all_goals try contradiction)
        rw [except_bind_ok]
        refine noPow_bind (noPow_fold_line_m _ _ _) (fun evals => ?_)
        exact noPow_inner_layers_loop _ _ _ _ _ _ _ _

theorem noPow_last_layer_check_loop (last_layer_poly : LinePoly)
    (domain : LineDomain) :
    ∀ (l : List (Nat × QM31)),
      NoPow (last_layer_check_loop last_layer_poly domain l)
  | [] => noPow_ok _
  | _ :: rest =>
    noPow_ite _
      (noPow_ve (by intro h; exact VerificationError.noConfusion h))
      (noPow_last_layer_check_loop last_layer_poly domain rest)

theorem noPow_decommit_last_layer {H : Type} (fv : FriVerifier H)
    (queries : Queries) (final_folded_evals : List QM31) :
    NoPow (fv.decommit_last_layer queries final_folded_evals) := by
  rw [FriVerifier.decommit_last_layer]
  cases fv.last_layer_poly with
  | none =>
    first
    | exact noPow_invalid _
    | (rw [except_bind_error]
       exact noPow_invalid _)
  | some poly =>
    split
    all_goals try contradiction
    rw [except_bind_ok]
    simp only []
    refine noPow_bind (noPow_coset_new _ _) (fun coset => ?_)
    refine noPow_ite _ (noPow_invalid _) ?_
    refine noPow_ite _ (noPow_invalid _) ?_
    exact noPow_last_layer_check_loop _ _ _

theorem noPow_decommit {H : Type} [DecidableEq H]
    (hasher : MerkleHasherOps H) (fv : FriVerifier H)
    (fri_input_evaluations : List QM31) :
    NoPow (fv.decommit hasher fri_input_evaluations) := by
  rw [FriVerifier.decommit]
  cases fv.queries with
  | none =>
    first
    | exact noPow_ve (by intro h; exact VerificationError.noConfusion h)
    | (rw [except_bind_error]
       exact noPow_ve (by intro h; exact VerificationError.noConfusion h))
  | some q =>
    split
    all_goals try contradiction
    rw [except_bind_ok]
    unfold FriVerifier.decommit_on_queries
    refine noPow_bind (noPow_decommit_first_layer _ _ _ _) (fun fle => ?_)
    refine noPow_bind (noPow_decommit_inner_layers _ _ _ _) ?_
    rintro ⟨lq, le⟩
    exact noPow_decommit_last_layer _ _ _

/-- Characterisation of the fuelled trailing-zero count: below `2 ^ f` it
either reports `f` on zero, or the exact 2-adic valuation. -/
theorem trailing_zeros_fuel_spec :
    ∀ (f x : Nat), x < 2 ^ f →
      (trailing_zeros_fuel f x = f ∧ x = 0) ∨
      (2 ^ trailing_zeros_fuel f x ∣ x ∧
        ¬ 2 ^ (trailing_zeros_fuel f x + 1) ∣ x) := by
  intro f
  induction f with
  | zero =>
    intro x hx
    left
    exact ⟨rfl, by omega⟩
  | succ m ih =>
    intro x hx
    rw [trailing_zeros_fuel]
    by_cases hodd : x % 2 = 1
    · rw [if_pos hodd]
      right
      constructor
      · exact Nat.one_dvd x |>.elim fun k hk => ⟨k, by simpa using hk⟩
      · intro hdvd
        rw [pow_one] at hdvd
        obtain ⟨k, hk⟩ := hdvd
        omega
    · rw [if_neg hodd]
      have hx2 : x / 2 < 2 ^ m := by
        rw [Nat.div_lt_iff_lt_mul (by norm_num)]
        calc x < 2 ^ (m + 1) := hx
        _ = 2 ^ m * 2 := by rw [pow_succ]
      rcases ih (x / 2) hx2 with ⟨heq, hzero⟩ | ⟨hdvd, hndvd⟩
      · left
        rw [heq]
        exact ⟨by omega, by omega⟩
      · right
        have hxe : x = 2 * (x / 2) := by omega
        generalize hgt : trailing_zeros_fuel m (x / 2) = t at hdvd hndvd ⊢
        obtain ⟨k, hk⟩ := hdvd
        constructor
        · refine ⟨k, ?_⟩
          have h2 : 2 ^ (1 + t) * k = 2 * (2 ^ t * k) := by ring
          omega
        · rintro ⟨k2, hk2⟩
          apply hndvd
          refine ⟨k2, ?_⟩
          have h3 : 2 ^ (1 + t + 1) * k2 = 2 * (2 ^ (t + 1) * k2) := by ring
          omega

/-- The Blake2s channel `trailing_zeros` reports 128 on a zero low half
and the exact 2-adic valuation of the low-16-byte little-endian `u128`
otherwise. -/
theorem blake2s_trailing_zeros_spec (digest : List Nat) :
    (blake2s_channel_trailing_zeros digest = 128 ∧
      le_bytes_to_nat (digest.take 16) % 2 ^ 128 = 0) ∨
    (2 ^ blake2s_channel_trailing_zeros digest ∣
        le_bytes_to_nat (digest.take 16) % 2 ^ 128 ∧
      ¬ 2 ^ (blake2s_channel_trailing_zeros digest + 1) ∣
        le_bytes_to_nat (digest.take 16) % 2 ^ 128) := by
  have h := trailing_zeros_fuel_spec 128
    (le_bytes_to_nat (digest.take 16) % 2 ^ 128)
    (Nat.mod_lt _ (by norm_num))
  rw [blake2s_channel_trailing_zeros, u128_trailing_zeros]
  exact h

/-- C7: once `verify_values` reaches the proof-of-work step (the FRI commit
returned `Ok`), it mixes `proof.proof_of_work` into the channel via
`mix_u64` and then fails with `ProofOfWork` if and only if the channel's
`trailing_zeros()` is below `pow_bits`; the Blake2s channel's
`trailing_zeros` is the trailing-zero count of the low 16 digest bytes read
as a little-endian `u128`. -/
theorem c7_proof_of_work_check {σ H : Type} [DecidableEq H]
    (ops : ChannelOps σ H) (hasher : MerkleHasherOps H)
    (scheme : CommitmentSchemeVerifier H)
    (points : List (List (List (CirclePoint QM31))))
    (proof : CommitmentSchemeProof H) (channel : σ) (fv : FriVerifier H)
    (ch1 : σ)
    (hcommit : FriVerifier.commit ops
      ((ops.draw_felt (ops.mix_felts channel
        proof.sampled_values.flatten.flatten)).2)
      scheme.config.fri_config proof.fri_proof
      (verify_values_fri_verifier_bounds scheme.committed_trees
        scheme.config.fri_config.log_blowup_factor) = .ok (fv, ch1)) :
    (CommitmentSchemeVerifier.verify_values ops hasher scheme points proof
        channel = .error (.ve .ProofOfWork) ↔
      ops.trailing_zeros (ops.mix_u64 ch1 proof.proof_of_work) <
        scheme.config.pow_bits) ∧
    (∀ digest : List Nat,
      (blake2s_channel_trailing_zeros digest = 128 ∧
        le_bytes_to_nat (digest.take 16) % 2 ^ 128 = 0) ∨
      (2 ^ blake2s_channel_trailing_zeros digest ∣
          le_bytes_to_nat (digest.take 16) % 2 ^ 128 ∧
        ¬ 2 ^ (blake2s_channel_trailing_zeros digest + 1) ∣
          le_bytes_to_nat (digest.take 16) % 2 ^ 128)) := by
  refine ⟨?_, blake2s_trailing_zeros_spec⟩
  rw [CommitmentSchemeVerifier.verify_values]
  simp only []
  rw [hcommit, except_bind_ok]
  simp only []
  constructor
  · intro hres
    by_contra hlt
    rw [if_neg hlt] at hres
    revert hres
    refine noPow_bind (noPow_sample_query_positions _ _ _ _) ?_
    rintro ⟨qpls, fv2, ch⟩
    refine noPow_ite _ (noPow_invalid _) ?_
    refine noPow_bind (noPow_mapM _ (fun tdq => noPow_merkle_verify _ _ _ _ _) _)
      (fun u => ?_)
    refine noPow_ite _ (noPow_invalid _) ?_
    refine noPow_bind (noPow_reassemble_samples _ _) (fun samples => ?_)
    refine noPow_bind (noPow_fri_answers _ _ _ _ _ _) (fun far => ?_)
    refine noPow_bind (noPow_mapM _ (fun v => ?_) _) (fun fe => ?_)
    · cases v with
      | nil => exact noPow_panicked
      | cons x rest => exact noPow_ok _
    · exact noPow_bind (noPow_decommit _ _ _) (fun u2 => noPow_ok _)
  · intro hlt
    rw [if_pos hlt]

/-- C7 witness: on the trivial channel, the empty scheme and the minimal
proof, the FRI commit succeeds and the proof-of-work characterisation
holds (here it fires: 0 trailing zeros < 1 required bit). -/
theorem c7_witness :
    (FriVerifier.commit unitChannelOps
      ((unitChannelOps.draw_felt (unitChannelOps.mix_felts ()
        unitPcsProof.sampled_values.flatten.flatten)).2)
      emptyScheme.config.fri_config unitPcsProof.fri_proof
      (verify_values_fri_verifier_bounds emptyScheme.committed_trees
        emptyScheme.config.fri_config.log_blowup_factor) =
      .ok (c7FvWitness, ())) ∧
    (CommitmentSchemeVerifier.verify_values unitChannelOps unitHasherOps
        emptyScheme [] unitPcsProof () = .error (.ve .ProofOfWork) ↔
      unitChannelOps.trailing_zeros
        (unitChannelOps.mix_u64 () unitPcsProof.proof_of_work) <
        emptyScheme.config.pow_bits) :=
  ⟨rfl, (c7_proof_of_work_check unitChannelOps unitHasherOps emptyScheme []
    unitPcsProof () c7FvWitness () rfl).1⟩

/-- C10 witness: the involution at `i = 3`, `log_size = 4`. -/
theorem c10_witness :
    ((3 : Nat) < 2 ^ 4 ∧ (4 : Nat) ≤ USIZE_BITS) ∧
    (bit_reverse_index (bit_reverse_index 3 4) 4 = 3 ∧
      (∀ j, bit_reverse_index j 0 = j) ∧
      (0 < 4 → bit_reverse_index 3 4 =
        usize_reverse_bits 3 >>> (USIZE_BITS - 4))) :=
  ⟨⟨by decide, by decide⟩,
    c10_bit_reverse_index_involution 3 4 (by decide) (by decide)⟩

end Stwo
